import Mathlib

/-!
Verification development for a batch ETL pipeline (CSV → star-schema warehouse).

The development shallowly embeds the transform phase (cleaning, validation,
date-dimension derivation, dimension extraction), the warehouse load phase
(insert-if-absent dimension/fact loading, surrogate-key enrichment,
transactional commit/rollback), and the pipeline orchestrator.

Modelling conventions:
- Python strings are Lean `String`s; the character-level helpers work on
  `List Char` and model CPython semantics of `str.strip`, `str.split`,
  `str.title` for the character classes that can occur in the data.
- Pandas DataFrames are lists of records; column-wise operations are
  elementwise maps over the rows.
- Monetary amounts and timestamps are rationals (`ℚ`); timestamps count days
  since the proleptic-Gregorian epoch, with fractional part the time of day.
- The warehouse is explicit state; a load call is a function from the
  pre-call state to either a post-call state plus statistics (commit) or an
  error (rollback, which restores the pre-call state).
-/

namespace ETL

/-! ### Python string primitives -/

/-- Whitespace characters recognised by `str.strip` / `str.split`
(ASCII subset relevant to the data). -/
def isPySpace (c : Char) : Bool :=
  c = ' ' || c = '\t' || c = '\n' || c = '\r' || c = '\x0b' || c = '\x0c'

/-- Drop trailing whitespace. -/
def stripTrailing (l : List Char) : List Char :=
  (l.reverse.dropWhile isPySpace).reverse

/-- Embedding of `str.strip()`: drop leading and trailing whitespace. -/
def pyStripL (l : List Char) : List Char :=
  (stripTrailing l).dropWhile isPySpace

/-- Helper for `str.split()` with no separator: accumulates the current word
(reversed) and emits maximal runs of non-whitespace characters. -/
def pySplitAux : List Char → List Char → List (List Char)
  | [], acc => if acc = [] then [] else [acc.reverse]
  | c :: cs, acc =>
    if isPySpace c then
      if acc = [] then pySplitAux cs [] else acc.reverse :: pySplitAux cs []
    else
      pySplitAux cs (c :: acc)

/-- Embedding of `str.split()` with no arguments: split on whitespace runs, no empty parts. -/
def pySplitL (l : List Char) : List (List Char) :=
  pySplitAux l []

/-- Single-space join, as in the Python expression joining with a one-space
separator. -/
def joinSpace : List (List Char) → List Char
  | [] => []
  | [w] => w
  | w :: ws => w ++ ' ' :: joinSpace ws

/-- Helper for `str.title()`: the Boolean records whether the previous
character was alphabetic (cased). A letter after a non-letter is uppercased,
a letter after a letter is lowercased, non-letters pass through. -/
def pyTitleAux : Bool → List Char → List Char
  | _, [] => []
  | prevAlpha, c :: cs =>
    if c.isAlpha then
      (if prevAlpha then c.toLower else c.toUpper) :: pyTitleAux true cs
    else
      c :: pyTitleAux false cs

/-- Embedding of `str.title()`. -/
def pyTitleL (l : List Char) : List Char :=
  pyTitleAux false l

/-- String-level wrapper for `str.strip()`. -/
def pyStrip (s : String) : String :=
  (pyStripL s.toList).asString

/-- String-level wrapper for `str.title()`. -/
def pyTitle (s : String) : String :=
  (pyTitleL s.toList).asString

/-! ### Standardizer (src/transform.py)

`standardize_category`, `standardize_merchant`, `standardize_payment_method`
receive a scalar that may be null (`pd.isna`); null passes through unchanged,
which `Option.map` models. -/

/-- Core of `standardize_category`: `str(category).strip().title()`. -/
def stdCategory (s : String) : String :=
  ((pyTitleL (pyStripL s.toList))).asString

/-- Core of `standardize_merchant`: strip, then join the whitespace-split
words with single spaces, then title-case. -/
def stdMerchant (s : String) : String :=
  (pyTitleL (joinSpace (pySplitL (pyStripL s.toList)))).asString

/-- Core of `standardize_payment_method`: `str(pm).strip().title()`. -/
def stdPaymentMethod (s : String) : String :=
  ((pyTitleL (pyStripL s.toList))).asString

/-- The function `standardize_category` with the null passthrough. -/
def standardize_category (v : Option String) : Option String :=
  v.map stdCategory

/-- The function `standardize_merchant` with the null passthrough. -/
def standardize_merchant (v : Option String) : Option String :=
  v.map stdMerchant

/-- The function `standardize_payment_method` with the null passthrough. -/
def standardize_payment_method (v : Option String) : Option String :=
  v.map stdPaymentMethod

/-- Modelled from the spec (for comparison with the code): capitalize the
first letter of a word, lowercase the rest. -/
def capWord : List Char → List Char
  | [] => []
  | c :: cs => c.toUpper :: cs.map Char.toLower

/-- Modelled from the spec (for comparison with the code): convert to string,
strip, collapse internal whitespace runs to single spaces, and title-case
word by word (first letter capitalized, rest lowercased). -/
def specStandardize (s : String) : String :=
  (joinSpace ((pySplitL s.toList).map capWord)).asString

/-! ### Calendar model

Pandas datetimes are proleptic-Gregorian calendar dates; the attribute
accessors used by `derive_date_attributes` (`dt.quarter`,
`dt.isocalendar().day`, `dt.isocalendar().week`, `dt.month_name()`,
`dt.day_name()`, `dt.strftime`) are embedded below as calendar arithmetic.
`rataDie` counts days from 0001-01-01 = day 1 (a Monday), matching
`date.toordinal`. -/

structure Date where
  year : Nat
  month : Nat
  day : Nat
deriving DecidableEq

/-- Gregorian leap-year rule. -/
def isLeapYear (y : Nat) : Bool :=
  (y % 4 == 0 && !(y % 100 == 0)) || y % 400 == 0

/-- Length of month `m` of year `y`. -/
def daysInMonth (y m : Nat) : Nat :=
  if m = 2 then (if isLeapYear y then 29 else 28)
  else if m = 4 ∨ m = 6 ∨ m = 9 ∨ m = 11 then 30
  else 31

/-- One-based ordinal of the date in its year. -/
def dayOfYear (dt : Date) : Nat :=
  (((List.range (dt.month - 1)).map (fun i => daysInMonth dt.year (i + 1))).sum) + dt.day

/-- Days since the epoch, with 0001-01-01 equal to 1 (`date.toordinal`). -/
def rataDie (dt : Date) : Nat :=
  let p := dt.year - 1
  365 * p + p / 4 + p / 400 - p / 100 + dayOfYear dt

/-- ISO 8601 day of week (Monday = 1 … Sunday = 7), as produced by
`dt.isocalendar().day`. -/
def isoDayOfWeek (dt : Date) : Nat :=
  (rataDie dt - 1) % 7 + 1

/-- Number of ISO weeks in year `y` (52 or 53). -/
def isoWeeksInYear (y : Nat) : Nat :=
  if isoDayOfWeek ⟨y, 1, 1⟩ = 4 ∨ isoDayOfWeek ⟨y, 12, 31⟩ = 4 then 53 else 52

/-- ISO 8601 week number, as produced by `dt.isocalendar().week`. -/
def isoWeekOfYear (dt : Date) : Nat :=
  let w := (10 + dayOfYear dt - isoDayOfWeek dt) / 7
  if w < 1 then isoWeeksInYear (dt.year - 1)
  else if isoWeeksInYear dt.year < w then 1
  else w

/-- Full English month name (`dt.month_name()`). -/
def monthName : Nat → String
  | 1 => "January" | 2 => "February" | 3 => "March" | 4 => "April"
  | 5 => "May" | 6 => "June" | 7 => "July" | 8 => "August"
  | 9 => "September" | 10 => "October" | 11 => "November" | 12 => "December"
  | _ => ""

/-- Full English day name (`dt.day_name()`), indexed by ISO day of week. -/
def dayName : Nat → String
  | 1 => "Monday" | 2 => "Tuesday" | 3 => "Wednesday" | 4 => "Thursday"
  | 5 => "Friday" | 6 => "Saturday" | 7 => "Sunday"
  | _ => ""

/-- The YYYYMMDD integer produced by `strftime` on the date. -/
def Date.toKey (dt : Date) : Nat :=
  dt.year * 10000 + dt.month * 100 + dt.day

/-- A well-formed calendar date within the range representable by pandas
timestamps (in particular the year has four digits). -/
def validDate (dt : Date) : Prop :=
  1000 ≤ dt.year ∧ dt.year ≤ 9999 ∧ 1 ≤ dt.month ∧ dt.month ≤ 12 ∧
    1 ≤ dt.day ∧ dt.day ≤ daysInMonth dt.year dt.month

instance (dt : Date) : Decidable (validDate dt) := by
  unfold validDate; infer_instance

/-- Timestamp of midnight on a date, in days since the epoch. Timestamps are
rationals so that a time of day is a fractional part. -/
def dateTs (dt : Date) : ℚ :=
  (rataDie dt : ℚ)

/-! ### Date dimension rows (derive_date_attributes, src/transform.py) -/

structure DateRow where
  date_key : Nat
  date : Date
  year : Nat
  quarter : Nat
  month : Nat
  day : Nat
  month_name : String
  day_name : String
  day_of_week : Nat
  week_of_year : Nat
  is_weekend : Bool
deriving DecidableEq

/-- The row `derive_date_attributes` computes for one date: `dt.quarter` is
`(month + 2) / 3`, `is_weekend` is membership of the ISO day of week in
`[6, 7]`. -/
def mkDateRow (d : Date) : DateRow :=
  { date_key := d.toKey
    date := d
    year := d.year
    quarter := (d.month + 2) / 3
    month := d.month
    day := d.day
    month_name := monthName d.month
    day_name := dayName (isoDayOfWeek d)
    day_of_week := isoDayOfWeek d
    week_of_year := isoWeekOfYear d
    is_weekend := isoDayOfWeek d == 6 || isoDayOfWeek d == 7 }

/-- Chronological order used by `sort_values` on the date column; on
well-formed dates it agrees with comparing YYYYMMDD keys. -/
def dateLe (a b : Date) : Prop :=
  a.toKey ≤ b.toKey

instance : DecidableRel dateLe := fun a b =>
  inferInstanceAs (Decidable (a.toKey ≤ b.toKey))

instance : IsTotal Date dateLe :=
  ⟨fun a b => Nat.le_total a.toKey b.toKey⟩

instance : IsTrans Date dateLe :=
  ⟨fun _ _ _ => Nat.le_trans⟩

/-- Embedding of `derive_date_attributes`: one row per distinct input date, sorted
ascending by date, with all attributes derived. (`unique()` followed by an
ascending sort produces the sorted list of distinct dates, embedded here as
dedup followed by insertion sort.) -/
def derive_date_attributes (dates : List Date) : List DateRow :=
  ((dates.dedup).insertionSort dateLe).map mkDateRow

/-! ### Validator (validate_transaction_data, src/transform.py)

A raw scalar cell is either null (missing/NaN), present but rejected by the
relevant coercion (`pd.to_numeric` / `pd.to_datetime` with coerce turn it
into NaN/NaT), or a coerced value. Dates are timestamps (`ℚ`, days since
epoch). -/

inductive RawField (α : Type) where
  | null
  | unparseable
  | value (a : α)
deriving DecidableEq

structure RawTxn where
  transaction_id : RawField String
  date : RawField ℚ
  category : RawField String
  amount : RawField ℚ
  merchant : RawField String
  payment_method : RawField String
  user_id : RawField ℚ
deriving DecidableEq

inductive FieldTag where
  | transaction_id | date | category | amount | merchant | payment_method | user_id
deriving DecidableEq

/-- Nullness of a raw column value (`df[field].isnull()`), checked on the
original, pre-coercion cells. -/
def isNullField (f : FieldTag) (r : RawTxn) : Bool :=
  match f with
  | .transaction_id => decide (r.transaction_id = .null)
  | .date => decide (r.date = .null)
  | .category => decide (r.category = .null)
  | .amount => decide (r.amount = .null)
  | .merchant => decide (r.merchant = .null)
  | .payment_method => decide (r.payment_method = .null)
  | .user_id => decide (r.user_id = .null)

def ALLOWED_CATEGORIES : List String :=
  ["Groceries", "Dining", "Transportation", "Entertainment",
   "Utilities", "Shopping", "Healthcare", "Travel"]

def ALLOWED_PAYMENT_METHODS : List String :=
  ["Credit Card", "Debit Card", "Cash", "Digital Wallet"]

def MIN_AMOUNT : ℚ := 1 / 100

def MAX_AMOUNT : ℚ := 10000

/-- Timestamp of `datetime(2020, 1, 1)`. -/
def MIN_VALID_DATE : ℚ := dateTs ⟨2020, 1, 1⟩

/-- Module-level context of a validation call. `MAX_VALID_DATE` in the source
is `datetime.now()` evaluated once when the module is imported, so it is a
constant of the process, not of the validation run; `importNow` is that
constant. The two Booleans model a catastrophic internal error raised by the
amount (resp. date) coercion logic, caught by the surrounding try/except. -/
structure ValParams where
  importNow : ℚ
  amountRaises : Bool
  dateRaises : Bool

/-- Validation issues. The source appends human-readable strings; the label
and the aggregated count are the content, sample values elided in the message
are presentation. -/
inductive Issue where
  | nullField (f : FieldTag) (count : Nat)
  | invalidAmounts (count : Nat)
  | amountsTooLarge (count : Nat)
  | amountError
  | invalidDateFormat (count : Nat)
  | datesTooOld (count : Nat)
  | futureDates (count : Nat)
  | dateError
  | invalidCategories (count : Nat)
  | invalidPaymentMethods (count : Nat)
  | invalidUserIds (count : Nat)
deriving DecidableEq

/-- The DataFrame during validation: rows paired with their `is_valid` flag,
plus the issues accumulated so far. -/
structure VState where
  rows : List (RawTxn × Bool)
  issues : List Issue

/-- Append an issue only when at least one row triggered it. -/
def appendIf (cnt : Nat) (i : Issue) (issues : List Issue) : List Issue :=
  if 0 < cnt then issues ++ [i] else issues

/-- One `df.loc[pred, is_valid] = False` step with its aggregated issue. -/
def stepMark (pred : RawTxn → Bool) (mk : Nat → Issue) (st : VState) : VState :=
  { rows := st.rows.map (fun rv => (rv.1, rv.2 && !(pred rv.1)))
    issues :=
      appendIf (st.rows.countP (fun rv => pred rv.1))
        (mk (st.rows.countP (fun rv => pred rv.1))) st.issues }

/-- A column-transforming assignment (coercion / rounding). -/
def stepMap (f : RawTxn → RawTxn) (st : VState) : VState :=
  { rows := st.rows.map (fun rv => (f rv.1, rv.2)), issues := st.issues }

/-- The except-branch of a coercion block: report the error, touch no row. -/
def pushIssue (i : Issue) (st : VState) : VState :=
  { st with issues := st.issues ++ [i] }

/-- Coercion semantics of `pd.to_numeric` / `pd.to_datetime` with `errors='coerce'`: unparseable
cells become NaN/NaT (null), values stay. -/
def numCoerce (x : RawField ℚ) : RawField ℚ :=
  match x with
  | .value q => .value q
  | _ => .null

def coerceAmount (r : RawTxn) : RawTxn := { r with amount := numCoerce r.amount }

def coerceDate (r : RawTxn) : RawTxn := { r with date := numCoerce r.date }

def coerceUser (r : RawTxn) : RawTxn := { r with user_id := numCoerce r.user_id }

/-- The check `(df.amount <= 0) | df.amount.isnull()` after coercion. -/
def badAmount (r : RawTxn) : Bool :=
  match r.amount with
  | .value q => decide (q ≤ 0)
  | _ => true

/-- The check `df.amount > MAX_AMOUNT` (false on NaN). -/
def tooLargeAmount (r : RawTxn) : Bool :=
  match r.amount with
  | .value q => decide (MAX_AMOUNT < q)
  | _ => false

/-- The check `df.date.isnull()` after coercion. -/
def badDateFmt (r : RawTxn) : Bool :=
  match r.date with
  | .null => true
  | _ => false

/-- The check `valid_dates & (df.date < MIN_VALID_DATE)`. -/
def tooOldDate (r : RawTxn) : Bool :=
  match r.date with
  | .value t => decide (t < MIN_VALID_DATE)
  | _ => false

/-- The check `valid_dates & (df.date > MAX_VALID_DATE)`, against the import-time
constant. -/
def futureDate (p : ValParams) (r : RawTxn) : Bool :=
  match r.date with
  | .value t => decide (p.importNow < t)
  | _ => false

def badCategory (r : RawTxn) : Bool :=
  match r.category with
  | .value s => !(decide (s ∈ ALLOWED_CATEGORIES))
  | _ => true

def badPayment (r : RawTxn) : Bool :=
  match r.payment_method with
  | .value s => !(decide (s ∈ ALLOWED_PAYMENT_METHODS))
  | _ => true

/-- The check `df.user_id.isnull()` after coercion. -/
def badUser (r : RawTxn) : Bool :=
  match r.user_id with
  | .null => true
  | _ => false

/-- Round to two decimal places with ties to even (`Series.round(2)`). -/
def roundHalfEvenCents (q : ℚ) : ℚ :=
  let c : ℚ := q * 100
  let f : ℤ := ⌊c⌋
  let n : ℤ :=
    if c - f < 1 / 2 then f
    else if (1 : ℚ) / 2 < c - f then f + 1
    else if f % 2 = 0 then f else f + 1
  (n : ℚ) / 100

def roundAmountRow (r : RawTxn) : RawTxn :=
  { r with amount :=
      match r.amount with
      | .value q => .value (roundHalfEvenCents q)
      | x => x }

/-- Null checks on the seven required fields, in the order of the source's
`required_fields` list. -/
def nullChecksBlock (st : VState) : VState :=
  let st := stepMark (isNullField .transaction_id) (Issue.nullField .transaction_id) st
  let st := stepMark (isNullField .date) (Issue.nullField .date) st
  let st := stepMark (isNullField .category) (Issue.nullField .category) st
  let st := stepMark (isNullField .amount) (Issue.nullField .amount) st
  let st := stepMark (isNullField .merchant) (Issue.nullField .merchant) st
  let st := stepMark (isNullField .payment_method) (Issue.nullField .payment_method) st
  stepMark (isNullField .user_id) (Issue.nullField .user_id) st

/-- The amount try-block: coerce, mark non-positive/non-numeric, mark
over-maximum, round; on an internal error the except-branch only reports. -/
def amountBlock (p : ValParams) (st : VState) : VState :=
  if p.amountRaises then pushIssue .amountError st
  else
    let st := stepMap coerceAmount st
    let st := stepMark badAmount Issue.invalidAmounts st
    let st := stepMark tooLargeAmount Issue.amountsTooLarge st
    stepMap roundAmountRow st

/-- The date try-block: coerce, mark unparseable, too old, future; on an
internal error the except-branch only reports. -/
def dateBlock (p : ValParams) (st : VState) : VState :=
  if p.dateRaises then pushIssue .dateError st
  else
    let st := stepMap coerceDate st
    let st := stepMark badDateFmt Issue.invalidDateFormat st
    let st := stepMark tooOldDate Issue.datesTooOld st
    stepMark (futureDate p) Issue.futureDates st

/-- Category membership, payment-method membership, user-id coercion and
check (the final `astype` of an already numeric column is the identity on
the model). -/
def categoricalBlock (st : VState) : VState :=
  let st := stepMark badCategory Issue.invalidCategories st
  let st := stepMark badPayment Issue.invalidPaymentMethods st
  let st := stepMap coerceUser st
  stepMark badUser Issue.invalidUserIds st

/-- Embedding of `validate_transaction_data`, step by step in source order. -/
def validateState (p : ValParams) (l : List RawTxn) : VState :=
  categoricalBlock (dateBlock p (amountBlock p
    (nullChecksBlock ⟨l.map (fun r => (r, true)), []⟩)))

/-- Embedding of `validate_transaction_data`: the valid rows (those whose flag survived)
and the issue list. -/
def validate_transaction_data (p : ValParams) (l : List RawTxn) :
    List RawTxn × List Issue :=
  let st := validateState p l
  ((st.rows.filter (fun rv => rv.2)).map (fun rv => rv.1), st.issues)

/-- The transformation validation applies to a single surviving row
(coercions and rounding), in step order. -/
def rowXform (p : ValParams) (r : RawTxn) : RawTxn :=
  let ra := if p.amountRaises then r else roundAmountRow (coerceAmount r)
  let rd := if p.dateRaises then ra else coerceDate ra
  coerceUser rd

/-- The final `is_valid` flag of a single row, accumulated exactly as the
marking steps do. -/
def rowValid (p : ValParams) (r : RawTxn) : Bool :=
  let v := true
  let v := v && !(isNullField .transaction_id r)
  let v := v && !(isNullField .date r)
  let v := v && !(isNullField .category r)
  let v := v && !(isNullField .amount r)
  let v := v && !(isNullField .merchant r)
  let v := v && !(isNullField .payment_method r)
  let v := v && !(isNullField .user_id r)
  let v :=
    if p.amountRaises then v
    else (v && !(badAmount (coerceAmount r))) && !(tooLargeAmount (coerceAmount r))
  let ra := if p.amountRaises then r else roundAmountRow (coerceAmount r)
  let v :=
    if p.dateRaises then v
    else ((v && !(badDateFmt (coerceDate ra))) && !(tooOldDate (coerceDate ra)))
      && !(futureDate p (coerceDate ra))
  let rd := if p.dateRaises then ra else coerceDate ra
  let v := v && !(badCategory rd)
  let v := v && !(badPayment rd)
  v && !(badUser (coerceUser rd))


/-- One `INSERT ... ON CONFLICT (natural key) DO NOTHING`. -/
def insertIfAbsent {α κ : Type} [DecidableEq κ] (key : α → κ) (t : List α) (a : α) : List α :=
  if key a ∈ t.map key then t else t ++ [a]

/-- A batched insert-if-absent (`execute_batch` over the candidate rows). -/
def batchInsert {α κ : Type} [DecidableEq κ] (key : α → κ) (t : List α) (l : List α) : List α :=
  l.foldl (insertIfAbsent key) t

/-! ### Cleaner (clean_transaction_data, src/transform.py) -/

/-- Embedding of `df.drop_duplicates(subset=[transaction_id], keep='first')`: keep each
record whose transaction id has not occurred earlier. -/
def drop_duplicates (l : List RawTxn) : List RawTxn :=
  batchInsert (fun r : RawTxn => r.transaction_id) [] l

/-- Trim whitespace on a string cell (`x.strip() if isinstance(x, str)`). -/
def stripField : RawField String → RawField String
  | .value s => .value (pyStrip s)
  | x => x

/-- The whitespace-trimming pass over the object (string) columns. The raw
text of the date/amount/user columns is abstracted to its parse result, on
which surrounding whitespace has no effect. -/
def trimRow (r : RawTxn) : RawTxn :=
  { r with transaction_id := stripField r.transaction_id,
           category := stripField r.category,
           merchant := stripField r.merchant,
           payment_method := stripField r.payment_method }

/-- Apply a standardizer to a cell, with the `pd.isna` passthrough. -/
def stdField (f : String → String) : RawField String → RawField String
  | .value s => .value (f s)
  | x => x

def standardizeRow (r : RawTxn) : RawTxn :=
  { r with category := stdField stdCategory r.category,
           merchant := stdField stdMerchant r.merchant,
           payment_method := stdField stdPaymentMethod r.payment_method }

/-- Embedding of `clean_transaction_data`: drop duplicate transaction ids keeping the
first occurrence, then trim and standardize (all three column passes are
per-row maps, composed here). Works on a copy: the input list is a value,
never mutated. -/
def clean_transaction_data (l : List RawTxn) : List RawTxn :=
  (drop_duplicates l).map (fun r => standardizeRow (trimRow r))

/-! ### Validated records and dimension extraction (create_dimension_data) -/

structure ValidRecord where
  transaction_id : String
  date : Date
  category : String
  amount : ℚ
  merchant : String
  payment_method : String
  user_id : Int
deriving DecidableEq

/-- Embedding of `sorted(df[col].unique())` for a string column: the distinct values in
ascending lexicographic order. -/
def sortedUniqueStr (l : List String) : List String :=
  (l.dedup).insertionSort (· ≤ ·)

/-- Embedding of `sorted(df[col].unique())` for the integer user-id column. -/
def sortedUniqueInt (l : List Int) : List Int :=
  (l.dedup).insertionSort (· ≤ ·)

structure Dimensions where
  dim_date : List DateRow
  dim_category : List String
  dim_merchant : List String
  dim_payment_method : List String
  dim_user : List Int
deriving DecidableEq

/-- Embedding of `create_dimension_data`: the five dimension tables, derived from the
valid records only. -/
def create_dimension_data (l : List ValidRecord) : Dimensions :=
  { dim_date := derive_date_attributes (l.map (fun r => r.date))
    dim_category := sortedUniqueStr (l.map (fun r => r.category))
    dim_merchant := sortedUniqueStr (l.map (fun r => r.merchant))
    dim_payment_method := sortedUniqueStr (l.map (fun r => r.payment_method))
    dim_user := sortedUniqueInt (l.map (fun r => r.user_id)) }

/-- A fact-table row as prepared by `transform_transactions` (natural keys
plus the derived `date_key` column). -/
structure FactData where
  transaction_id : String
  date : Date
  category : String
  merchant : String
  payment_method : String
  user_id : Int
  amount : ℚ
  date_key : Nat
deriving DecidableEq

def mkFactData (r : ValidRecord) : FactData :=
  { transaction_id := r.transaction_id, date := r.date, category := r.category,
    merchant := r.merchant, payment_method := r.payment_method,
    user_id := r.user_id, amount := r.amount, date_key := r.date.toKey }

/-- The `transformed_data` bundle handed from transform to load. -/
structure TransformedData where
  fact_data : List FactData
  dim_date : List DateRow
  dim_category : List String
  dim_merchant : List String
  dim_payment_method : List String
  dim_user : List Int
deriving DecidableEq

/-! ### Warehouse loader (src/load.py)

A dimension table is the list of its rows in insertion order; a `SERIAL`
surrogate key is the one-based position of the natural key in that list. The
fact table is a list of enriched rows. `INSERT ... ON CONFLICT (key) DO
NOTHING` is an insert-if-absent on the natural key. The whole load call runs
in one transaction: commit publishes the new state, rollback restores the
pre-call state. -/

structure FactRow where
  transaction_id : String
  date_key : Nat
  category_key : Nat
  merchant_key : Nat
  payment_method_key : Nat
  user_key : Nat
  amount : ℚ
deriving DecidableEq

structure Warehouse where
  dim_date : List DateRow
  dim_category : List String
  dim_merchant : List String
  dim_payment_method : List String
  dim_user : List Int
  facts : List FactRow
deriving DecidableEq
def keyIndex {α : Type} [DecidableEq α] : List α → α → Option Nat
  | [], _ => none
  | a :: l, k => if a = k then some 1 else (keyIndex l k).map (fun n => n + 1)

inductive FactLoadKind where
  | unmappedCategories
  | unmappedMerchants
  | unmappedPaymentMethods
  | unmappedUserIds
  | unmappedDateKeys
deriving DecidableEq

inductive LoadError where
  | connection
  | dimensionLoad
  | factLoad (k : FactLoadKind)
deriving DecidableEq

/-- The natural-key → surrogate-key mappings fetched in step 2 of the load
(`get_all_dimension_mappings`): each is the key column of the corresponding
dimension table read inside the transaction; lookup is `keyIndex`. The date
mapping maps `date_key` to itself, so only the key set matters. -/
structure DimMappings where
  category : List String
  merchant : List String
  payment_method : List String
  user : List Int
  date_keys : List Nat

/-- Surrogate-key enrichment of one fact record (the lookups are guarded by
the missing-key checks in `enrich_fact_with_keys`, so the fallback value is
never produced there). -/
def enrichRow (m : DimMappings) (r : FactData) : FactRow :=
  { transaction_id := r.transaction_id
    date_key := r.date_key
    category_key := (keyIndex m.category r.category).getD 0
    merchant_key := (keyIndex m.merchant r.merchant).getD 0
    payment_method_key := (keyIndex m.payment_method r.payment_method).getD 0
    user_key := (keyIndex m.user r.user_id).getD 0
    amount := r.amount }

/-- Embedding of `enrich_fact_with_keys`: map each natural key to its surrogate key,
raising `FactLoadError` if any key of any of the five dimensions is
unmapped (checked column-wise in source order). -/
def enrich_fact_with_keys (facts : List FactData) (m : DimMappings) :
    Except LoadError (List FactRow) :=
  if facts.any (fun r => (keyIndex m.category r.category).isNone) then
    .error (.factLoad .unmappedCategories)
  else if facts.any (fun r => (keyIndex m.merchant r.merchant).isNone) then
    .error (.factLoad .unmappedMerchants)
  else if facts.any (fun r => (keyIndex m.payment_method r.payment_method).isNone) then
    .error (.factLoad .unmappedPaymentMethods)
  else if facts.any (fun r => (keyIndex m.user r.user_id).isNone) then
    .error (.factLoad .unmappedUserIds)
  else if facts.any (fun r => !(decide (r.date_key ∈ m.date_keys))) then
    .error (.factLoad .unmappedDateKeys)
  else
    .ok (facts.map (enrichRow m))

/-- Embedding of `check_existing_transactions`: the fact-table transaction ids that occur
in the incoming batch (one batched query). -/
def existingTransactionIds (facts batch : List FactRow) : List String :=
  (facts.map (fun r => r.transaction_id)).filter
    (fun t => decide (t ∈ batch.map (fun r => r.transaction_id)))

/-- The batch rows whose transaction id does not already exist. -/
def newTransactions (facts batch : List FactRow) : List FactRow :=
  batch.filter (fun r => !(decide (r.transaction_id ∈ existingTransactionIds facts batch)))

/-- Embedding of `load_fact_table`: batched existence check on `transaction_id`, skip
pre-existing facts, insert the rest with the insert-if-absent guard. Returns
the new fact table, the inserted count (row-count delta) and the skipped
count. -/
def load_fact_table (facts : List FactRow) (batch : List FactRow) :
    List FactRow × Nat × Nat :=
  (batchInsert (fun r : FactRow => r.transaction_id) facts (newTransactions facts batch),
   (batchInsert (fun r : FactRow => r.transaction_id) facts (newTransactions facts batch)).length
     - facts.length,
   batch.length - (newTransactions facts batch).length)

structure DimCounts where
  dim_date : Nat
  dim_category : Nat
  dim_merchant : Nat
  dim_payment_method : Nat
  dim_user : Nat
deriving DecidableEq

def zeroDimCounts : DimCounts := ⟨0, 0, 0, 0, 0⟩

structure LoadStats where
  dimensions_inserted : DimCounts
  facts_inserted : Nat
  facts_skipped : Nat
deriving DecidableEq

/-- Step 1 of `load_data_warehouse`: load the five dimension tables with the
insert-if-absent policy, in source order (date, category, merchant, payment
method, user); the fact table is untouched. -/
def loadDims (td : TransformedData) (W : Warehouse) : Warehouse :=
  { dim_date := batchInsert DateRow.date_key W.dim_date td.dim_date
    dim_category := batchInsert (fun s : String => s) W.dim_category td.dim_category
    dim_merchant := batchInsert (fun s : String => s) W.dim_merchant td.dim_merchant
    dim_payment_method :=
      batchInsert (fun s : String => s) W.dim_payment_method td.dim_payment_method
    dim_user := batchInsert (fun u : Int => u) W.dim_user td.dim_user
    facts := W.facts }

/-- The per-dimension inserted counts reported by `load_dimension` /
`load_dim_date`: row-count delta of each table. -/
def dimDeltas (td : TransformedData) (W : Warehouse) : DimCounts :=
  { dim_date := (loadDims td W).dim_date.length - W.dim_date.length
    dim_category := (loadDims td W).dim_category.length - W.dim_category.length
    dim_merchant := (loadDims td W).dim_merchant.length - W.dim_merchant.length
    dim_payment_method :=
      (loadDims td W).dim_payment_method.length - W.dim_payment_method.length
    dim_user := (loadDims td W).dim_user.length - W.dim_user.length }

/-- Embedding of `get_all_dimension_mappings`: read every dimension table's key column
(reads inside the transaction see the rows just written). -/
def warehouseMappings (W : Warehouse) : DimMappings :=
  { category := W.dim_category
    merchant := W.dim_merchant
    payment_method := W.dim_payment_method
    user := W.dim_user
    date_keys := W.dim_date.map DateRow.date_key }

/-- Embedding of `load_data_warehouse`, the in-transaction computation: load the five
dimension tables recording row-count deltas, fetch the key mappings, enrich
the facts, load the fact table. The source's early returns for empty inputs
coincide with this general path. -/
def load_data_warehouse (td : TransformedData) (W : Warehouse) :
    Except LoadError (LoadStats × Warehouse) :=
  match enrich_fact_with_keys td.fact_data (warehouseMappings (loadDims td W)) with
  | .error e => .error e
  | .ok enriched =>
    let res := load_fact_table (loadDims td W).facts enriched
    .ok
      ({ dimensions_inserted := dimDeltas td W
         facts_inserted := res.2.1
         facts_skipped := res.2.2 },
       { loadDims td W with facts := res.1 })

/-- A load call with its transaction semantics: commit publishes the new
warehouse state; on any failure the transaction is rolled back, so the
warehouse keeps its pre-call state and the typed error propagates. -/
def run_load (td : TransformedData) (W : Warehouse) :
    Warehouse × Except LoadError LoadStats :=
  match load_data_warehouse td W with
  | .ok sw => (sw.2, .ok sw.1)
  | .error e => (W, .error e)

/-! ### Pipeline orchestrator (run_etl_pipeline, src/etl_pipeline.py)

The three phases are parameters: whatever the phase code does, it either
returns a value or raises, which an `Except` with the exception message
models. The orchestrator itself never raises: it returns a result record in
every case, which is what its return type states. -/

inductive PipelineStatus where
  | success
  | failure
deriving DecidableEq

structure PipelineResult where
  status : PipelineStatus
  execution_time_seconds : ℚ
  extract : Nat
  transform : Nat
  load : Nat
  facts_skipped : Nat
  dimensions_inserted : DimCounts
  error : Option String
deriving DecidableEq

/-- Embedding of `run_etl_pipeline`: wrap each phase, tag failures with the phase,
accumulate statistics, and convert every raised error into a returned
failure record (the initial empty dimension-count dict is the zero record).
`elapsed` stands for the wall-clock difference the source computes with
`time.time()`. -/
def run_etl_pipeline
    (extractPhase : Except String (List RawTxn))
    (transformPhase : List RawTxn → Except String TransformedData)
    (loadPhase : TransformedData → Except String LoadStats)
    (dryRun : Bool) (elapsed : ℚ) : PipelineResult :=
  match extractPhase with
  | .error e =>
    { status := .failure, execution_time_seconds := elapsed, extract := 0,
      transform := 0, load := 0, facts_skipped := 0,
      dimensions_inserted := zeroDimCounts,
      error := some ("Extract phase failed: " ++ e) }
  | .ok df =>
    match transformPhase df with
    | .error e =>
      { status := .failure, execution_time_seconds := elapsed, extract := df.length,
        transform := 0, load := 0, facts_skipped := 0,
        dimensions_inserted := zeroDimCounts,
        error := some ("Transform phase failed: " ++ e) }
    | .ok td =>
      if dryRun then
        { status := .success, execution_time_seconds := elapsed, extract := df.length,
          transform := td.fact_data.length, load := 0, facts_skipped := 0,
          dimensions_inserted := zeroDimCounts, error := none }
      else
        match loadPhase td with
        | .error e =>
          { status := .failure, execution_time_seconds := elapsed,
            extract := df.length, transform := td.fact_data.length, load := 0,
            facts_skipped := 0, dimensions_inserted := zeroDimCounts,
            error := some ("Load phase failed: " ++ e) }
        | .ok s =>
          { status := .success, execution_time_seconds := elapsed,
            extract := df.length, transform := td.fact_data.length,
            load := s.facts_inserted, facts_skipped := s.facts_skipped,
            dimensions_inserted := s.dimensions_inserted, error := none }

/-! ### Auxiliary predicates and concrete instances referenced by theorems -/

/-- The per-row validity predicate when the amount block raised (and the
date block did not): every check except the two amount checks, exactly in
marking order. -/
def passesExceptAmount (p : ValParams) (r : RawTxn) : Bool :=
  let v := true
  let v := v && !(isNullField .transaction_id r)
  let v := v && !(isNullField .date r)
  let v := v && !(isNullField .category r)
  let v := v && !(isNullField .amount r)
  let v := v && !(isNullField .merchant r)
  let v := v && !(isNullField .payment_method r)
  let v := v && !(isNullField .user_id r)
  let v := ((v && !(badDateFmt (coerceDate r))) && !(tooOldDate (coerceDate r)))
    && !(futureDate p (coerceDate r))
  let v := v && !(badCategory (coerceDate r))
  let v := v && !(badPayment (coerceDate r))
  v && !(badUser (coerceUser (coerceDate r)))

/-- The per-row validity predicate when the date block raised (and the
amount block did not): every check except the three date checks. -/
def passesExceptDate (_p : ValParams) (r : RawTxn) : Bool :=
  let v := true
  let v := v && !(isNullField .transaction_id r)
  let v := v && !(isNullField .date r)
  let v := v && !(isNullField .category r)
  let v := v && !(isNullField .amount r)
  let v := v && !(isNullField .merchant r)
  let v := v && !(isNullField .payment_method r)
  let v := v && !(isNullField .user_id r)
  let v := (v && !(badAmount (coerceAmount r))) && !(tooLargeAmount (coerceAmount r))
  let v := v && !(badCategory (roundAmountRow (coerceAmount r)))
  let v := v && !(badPayment (roundAmountRow (coerceAmount r)))
  v && !(badUser (coerceUser (roundAmountRow (coerceAmount r))))

/-- A validation context whose process imported the module on 2026-01-01 and
whose coercions behave normally. -/
def normalParams : ValParams := ⟨dateTs ⟨2026, 1, 1⟩, false, false⟩

/-- A record with amount zero that is otherwise fully valid. -/
def zeroAmountRecord : RawTxn :=
  ⟨.value "t0", .value MIN_VALID_DATE, .value "Dining", .value 0,
   .value "Cafe", .value "Cash", .value 7⟩

/-- A record dated 2026-01-02: strictly after the module import above but at
or before any later validation run. -/
def postImportRecord : RawTxn :=
  ⟨.value "t1", .value (dateTs ⟨2026, 1, 2⟩), .value "Dining", .value 5,
   .value "Cafe", .value "Cash", .value 7⟩

/-- A validation context whose amount coercion raises internally. -/
def amountRaiseParams : ValParams := ⟨dateTs ⟨2026, 1, 1⟩, true, false⟩

/-- A fully valid record (used to show a coercion error does not exclude
unrelated-valid rows). -/
def wholesomeRecord : RawTxn :=
  ⟨.value "t2", .value (dateTs ⟨2023, 6, 15⟩), .value "Groceries", .value 5,
   .value "Walmart", .value "Cash", .value 3⟩

/-- Two raw records sharing one transaction id (first and second occurrence
differ in their category). -/
def dupFirstRecord : RawTxn :=
  ⟨.value "tx1", .null, .value "Dining", .null, .null, .null, .null⟩

def dupSecondRecord : RawTxn :=
  ⟨.value "tx1", .null, .value "Travel", .null, .null, .null, .null⟩

/-- A one-record transformed batch whose dimensions cover its fact. -/
def sampleFact : FactData :=
  { transaction_id := "t1", date := ⟨2023, 6, 17⟩, category := "Dining",
    merchant := "Cafe", payment_method := "Cash", user_id := 7, amount := 5,
    date_key := 20230617 }

def sampleTd : TransformedData :=
  { fact_data := [sampleFact]
    dim_date := [mkDateRow ⟨2023, 6, 17⟩]
    dim_category := ["Dining"]
    dim_merchant := ["Cafe"]
    dim_payment_method := ["Cash"]
    dim_user := [7] }

def emptyWarehouse : Warehouse := ⟨[], [], [], [], [], []⟩

/-- A transformed batch whose fact references a category that no dimension
table carries (a broken dimension extraction). -/
def unmappedTd : TransformedData :=
  { fact_data := [{ sampleFact with category := "Unknown" }]
    dim_date := [mkDateRow ⟨2023, 6, 17⟩]
    dim_category := []
    dim_merchant := ["Cafe"]
    dim_payment_method := ["Cash"]
    dim_user := [7] }

/-! ## Theorems -/

lemma mem_issues_stepMark (pred : RawTxn → Bool) (mk : Nat → Issue) (st : VState)
    (i : Issue) (h : i ∈ st.issues) : i ∈ (stepMark pred mk st).issues := by
  by_cases hc : 0 < st.rows.countP (fun rv => pred rv.1) <;>
    simp [stepMark, appendIf, hc, h]

lemma mem_issues_stepMap (f : RawTxn → RawTxn) (st : VState)
    (i : Issue) (h : i ∈ st.issues) : i ∈ (stepMap f st).issues := h

lemma mem_pushIssue_self (i : Issue) (st : VState) : i ∈ (pushIssue i st).issues := by
  simp [pushIssue]

lemma amountError_mem_amountBlock (p : ValParams) (st : VState)
    (hA : p.amountRaises = true) : Issue.amountError ∈ (amountBlock p st).issues := by
  unfold amountBlock
  rw [if_pos hA]
  exact mem_pushIssue_self _ _

lemma dateError_mem_dateBlock (p : ValParams) (st : VState)
    (hD : p.dateRaises = true) : Issue.dateError ∈ (dateBlock p st).issues := by
  unfold dateBlock
  rw [if_pos hD]
  exact mem_pushIssue_self _ _

lemma mem_issues_dateBlock (p : ValParams) (st : VState) (i : Issue)
    (h : i ∈ st.issues) : i ∈ (dateBlock p st).issues := by
  unfold dateBlock
  by_cases hD : p.dateRaises = true
  · rw [if_pos hD]
    simp [pushIssue, h]
  · rw [if_neg hD]
    exact mem_issues_stepMark _ _ _ _ (mem_issues_stepMark _ _ _ _
      (mem_issues_stepMark _ _ _ _ (mem_issues_stepMap _ _ _ h)))

lemma mem_issues_categoricalBlock (st : VState) (i : Issue)
    (h : i ∈ st.issues) : i ∈ (categoricalBlock st).issues := by
  unfold categoricalBlock
  exact mem_issues_stepMark _ _ _ _ (mem_issues_stepMap _ _ _
    (mem_issues_stepMark _ _ _ _ (mem_issues_stepMark _ _ _ _ h)))

lemma validateState_rows (p : ValParams) (l : List RawTxn) :
    (validateState p l).rows = l.map (fun r => (rowXform p r, rowValid p r)) := by
  cases hA : p.amountRaises <;> cases hD : p.dateRaises <;>
    · simp only [validateState, nullChecksBlock, amountBlock, dateBlock, categoricalBlock,
        stepMark, stepMap, pushIssue, hA, hD, if_true, if_false,
        Bool.false_eq_true, List.map_map]
      refine List.map_congr_left (fun r _ => ?_)
      simp [Function.comp, rowXform, rowValid, hA, hD]

lemma filter_map_pair {α β : Type} (f : α → β) (g : α → Bool) :
    ∀ l : List α,
      ((l.map (fun r => (f r, g r))).filter (fun rv => rv.2)).map (fun rv => rv.1)
        = (l.filter g).map f
  | [] => rfl
  | a :: l => by
    by_cases h : g a <;> simp [h, filter_map_pair f g l]

/-- The valid output of validation is exactly the rows whose predicates all
pass, each transformed by the coercions/rounding. -/
lemma validate_fst (p : ValParams) (l : List RawTxn) :
    (validate_transaction_data p l).1 = (l.filter (rowValid p)).map (rowXform p) := by
  show ((validateState p l).rows.filter (fun rv => rv.2)).map (fun rv => rv.1)
      = (l.filter (rowValid p)).map (rowXform p)
  rw [validateState_rows]
  exact filter_map_pair _ _ l

lemma batchInsert_cons {α κ : Type} [DecidableEq κ] (key : α → κ) (t : List α)
    (a : α) (l : List α) :
    batchInsert key t (a :: l) = batchInsert key (insertIfAbsent key t a) l := rfl

lemma mem_map_key_batchInsert {α κ : Type} [DecidableEq κ] (key : α → κ) (k : κ) :
    ∀ (l t : List α),
      k ∈ (batchInsert key t l).map key ↔ k ∈ t.map key ∨ k ∈ l.map key := by
  intro l
  induction l with
  | nil => intro t; simp [batchInsert]
  | cons a l ih =>
    intro t
    rw [batchInsert_cons, ih]
    by_cases h : key a ∈ t.map key
    · simp only [insertIfAbsent, if_pos h, List.map_cons, List.mem_cons]
      constructor
      · rintro (h1 | h2)
        · exact Or.inl h1
        · exact Or.inr (Or.inr h2)
      · rintro (h1 | h2 | h3)
        · exact Or.inl h1
        · exact Or.inl (h2 ▸ h)
        · exact Or.inr h3
    · simp only [insertIfAbsent, if_neg h, List.map_append, List.mem_append,
        List.map_cons, List.mem_cons, List.map_nil, List.mem_singleton]
      tauto

lemma batchInsert_eq_of_all_mem {α κ : Type} [DecidableEq κ] (key : α → κ) :
    ∀ (l t : List α), (∀ a ∈ l, key a ∈ t.map key) → batchInsert key t l = t := by
  intro l
  induction l with
  | nil => intro t _; rfl
  | cons a l ih =>
    intro t h
    rw [batchInsert_cons, insertIfAbsent, if_pos (h a (List.mem_cons_self a l))]
    exact ih t (fun b hb => h b (List.mem_cons_of_mem a hb))

lemma length_batchInsert_of_disjoint {α κ : Type} [DecidableEq κ] (key : α → κ) :
    ∀ (l t : List α), (l.map key).Nodup → (∀ a ∈ l, key a ∉ t.map key) →
      (batchInsert key t l).length = t.length + l.length := by
  intro l
  induction l with
  | nil => intro t _ _; simp [batchInsert]
  | cons a l ih =>
    intro t hnd hdis
    rw [batchInsert_cons, insertIfAbsent, if_neg (hdis a (List.mem_cons_self a l))]
    have hnd2 : (l.map key).Nodup := by
      simpa using hnd.sublist (by simp)
    have hka : key a ∉ l.map key := by
      simp only [List.map_cons, List.nodup_cons] at hnd
      exact hnd.1
    have : (batchInsert key (t ++ [a]) l).length = (t ++ [a]).length + l.length := by
      refine ih (t ++ [a]) hnd2 (fun b hb => ?_)
      simp only [List.map_append, List.mem_append, List.map_cons, List.map_nil,
        List.mem_singleton]
      rintro (hbt | hba)
      · exact hdis b (List.mem_cons_of_mem a hb) hbt
      · exact hka (hba ▸ List.mem_map_of_mem key hb)
    simp only [this, List.length_append, List.length_cons, List.length_nil,
      List.length_singleton]
    omega

lemma batchInsert_filter_of_mem {α κ : Type} [DecidableEq κ] (key : α → κ) (k : κ) :
    ∀ (l t : List α), k ∈ t.map key →
      (batchInsert key t l).filter (fun a => decide (key a = k))
        = t.filter (fun a => decide (key a = k)) := by
  intro l
  induction l with
  | nil => intro t _; rfl
  | cons a l ih =>
    intro t hk
    rw [batchInsert_cons]
    by_cases h : key a ∈ t.map key
    · rw [insertIfAbsent, if_pos h]; exact ih t hk
    · rw [insertIfAbsent, if_neg h]
      have hne : ¬ (key a = k) := fun he => h (he ▸ hk)
      rw [ih (t ++ [a]) (by simp [hk])]
      simp [List.filter_append, hne]

lemma batchInsert_filter_of_not_mem {α κ : Type} [DecidableEq κ] (key : α → κ) (k : κ) :
    ∀ (l t : List α), k ∉ t.map key →
      (batchInsert key t l).filter (fun a => decide (key a = k))
        = (l.find? (fun a => decide (key a = k))).toList := by
  intro l
  induction l with
  | nil =>
    intro t hk
    rw [List.filter_eq_nil_iff.mpr ?_]
    · rfl
    · intro a ha
      simp only [decide_eq_true_eq]
      exact fun he => hk (he ▸ List.mem_map_of_mem key ha)
  | cons a l ih =>
    intro t hk
    rw [batchInsert_cons]
    by_cases he : key a = k
    · have h : key a ∉ t.map key := he ▸ hk
      rw [insertIfAbsent, if_neg h]
      rw [batchInsert_filter_of_mem key k l (t ++ [a]) (by simp [he])]
      have : t.filter (fun a => decide (key a = k)) = [] := by
        refine List.filter_eq_nil_iff.mpr (fun b hb => ?_)
        simp only [decide_eq_true_eq]
        exact fun hbe => hk (hbe ▸ List.mem_map_of_mem key hb)
      simp [List.filter_append, this, he, List.find?]
    · have step : insertIfAbsent key t a = t ∨ insertIfAbsent key t a = t ++ [a] := by
        unfold insertIfAbsent
        by_cases h : key a ∈ t.map key <;> simp [h]
      have hfind : (a :: l).find? (fun a => decide (key a = k)) = l.find? (fun a => decide (key a = k)) := by
        simp [List.find?, he]
      rcases step with hstep | hstep
      · rw [hstep, ih t hk, hfind]
      · rw [hstep, ih (t ++ [a]) (by simp [hk]; exact fun h => he h.symm), hfind]

/-- One-based index of the first occurrence of a natural key: the surrogate
key a `SERIAL` column assigned at insertion, as retrieved by
`get_dimension_key_mapping`. -/

lemma keyIndex_isSome_iff {α : Type} [DecidableEq α] :
    ∀ (l : List α) (k : α), (keyIndex l k).isSome = true ↔ k ∈ l := by
  intro l
  induction l with
  | nil => intro k; simp [keyIndex]
  | cons a l ih =>
    intro k
    by_cases he : a = k
    · subst he; simp [keyIndex]
    · rw [keyIndex, if_neg he]
      have hmap : (Option.map (fun n => n + 1) (keyIndex l k)).isSome
          = (keyIndex l k).isSome := by
        cases keyIndex l k <;> rfl
      rw [hmap, ih k]
      constructor
      · exact fun h => List.mem_cons_of_mem a h
      · intro h
        rcases List.mem_cons.mp h with h1 | h1
        · exact absurd h1.symm he
        · exact h1

lemma isNone_eq_false_of_isSome {γ : Type} {o : Option γ} (h : o.isSome = true) :
    o.isNone = false := by
  cases o <;> simp_all

lemma batchInsert_idem {α κ : Type} [DecidableEq κ] (key : α → κ) (t l : List α) :
    batchInsert key (batchInsert key t l) l = batchInsert key t l :=
  batchInsert_eq_of_all_mem key l (batchInsert key t l)
    (fun a ha => (mem_map_key_batchInsert key (key a) l t).mpr
      (Or.inr (List.mem_map_of_mem key ha)))

lemma mem_batchInsert_id {α : Type} [DecidableEq α] {t l : List α} {a : α}
    (h : a ∈ t ∨ a ∈ l) : a ∈ batchInsert (fun x : α => x) t l := by
  have h2 := (mem_map_key_batchInsert (fun x : α => x) a l t).mpr (by simpa using h)
  simpa using h2

lemma enrich_ok_of_covered (facts : List FactData) (m : DimMappings)
    (h : ∀ r ∈ facts, r.category ∈ m.category ∧ r.merchant ∈ m.merchant ∧
      r.payment_method ∈ m.payment_method ∧ r.user_id ∈ m.user ∧
      r.date_key ∈ m.date_keys) :
    enrich_fact_with_keys facts m = .ok (facts.map (enrichRow m)) := by
  have h1 : facts.any (fun r => (keyIndex m.category r.category).isNone) = false := by
    rw [List.any_eq_false]
    intro r hr
    simp only [Bool.not_eq_true]
    exact isNone_eq_false_of_isSome ((keyIndex_isSome_iff _ _).mpr (h r hr).1)
  have h2 : facts.any (fun r => (keyIndex m.merchant r.merchant).isNone) = false := by
    rw [List.any_eq_false]
    intro r hr
    simp only [Bool.not_eq_true]
    exact isNone_eq_false_of_isSome ((keyIndex_isSome_iff _ _).mpr (h r hr).2.1)
  have h3 : facts.any (fun r => (keyIndex m.payment_method r.payment_method).isNone) = false := by
    rw [List.any_eq_false]
    intro r hr
    simp only [Bool.not_eq_true]
    exact isNone_eq_false_of_isSome ((keyIndex_isSome_iff _ _).mpr (h r hr).2.2.1)
  have h4 : facts.any (fun r => (keyIndex m.user r.user_id).isNone) = false := by
    rw [List.any_eq_false]
    intro r hr
    simp only [Bool.not_eq_true]
    exact isNone_eq_false_of_isSome ((keyIndex_isSome_iff _ _).mpr (h r hr).2.2.2.1)
  have h5 : facts.any (fun r => !(decide (r.date_key ∈ m.date_keys))) = false := by
    rw [List.any_eq_false]
    intro r hr
    simp [(h r hr).2.2.2.2]
  unfold enrich_fact_with_keys
  simp only [h1, h2, h3, h4, h5, Bool.false_eq_true, if_false]

lemma enrich_error_of_missing (facts : List FactData) (m : DimMappings)
    (h : ∃ r ∈ facts, r.category ∉ m.category ∨ r.merchant ∉ m.merchant ∨
      r.payment_method ∉ m.payment_method ∨ r.user_id ∉ m.user ∨
      r.date_key ∉ m.date_keys) :
    ∃ k, enrich_fact_with_keys facts m = .error (.factLoad k) := by
  unfold enrich_fact_with_keys
  by_cases h1 : facts.any (fun r => (keyIndex m.category r.category).isNone) = true
  · exact ⟨.unmappedCategories, by simp only [h1, if_true]⟩
  by_cases h2 : facts.any (fun r => (keyIndex m.merchant r.merchant).isNone) = true
  · exact ⟨.unmappedMerchants, by simp only [h1, h2, if_true, if_false, Bool.not_eq_true] at *
                                  simp only [h1, h2, Bool.false_eq_true, if_false, if_true]⟩
  by_cases h3 : facts.any (fun r => (keyIndex m.payment_method r.payment_method).isNone) = true
  · refine ⟨.unmappedPaymentMethods, ?_⟩
    rw [Bool.not_eq_true] at h1 h2
    simp only [h1, h2, h3, Bool.false_eq_true, if_false, if_true]
  by_cases h4 : facts.any (fun r => (keyIndex m.user r.user_id).isNone) = true
  · refine ⟨.unmappedUserIds, ?_⟩
    rw [Bool.not_eq_true] at h1 h2 h3
    simp only [h1, h2, h3, h4, Bool.false_eq_true, if_false, if_true]
  by_cases h5 : facts.any (fun r => !(decide (r.date_key ∈ m.date_keys))) = true
  · refine ⟨.unmappedDateKeys, ?_⟩
    rw [Bool.not_eq_true] at h1 h2 h3 h4
    simp only [h1, h2, h3, h4, h5, Bool.false_eq_true, if_false, if_true]
  · exfalso
    rw [Bool.not_eq_true] at h1 h2 h3 h4 h5
    obtain ⟨r, hr, hmiss⟩ := h
    rcases hmiss with hm | hm | hm | hm | hm
    · exact hm ((keyIndex_isSome_iff _ _).mp (by
        have := List.any_eq_false.mp h1 r hr
        cases hx : keyIndex m.category r.category
        · rw [hx] at this; simp at this
        · simp [hx]))
    · exact hm ((keyIndex_isSome_iff _ _).mp (by
        have := List.any_eq_false.mp h2 r hr
        cases hx : keyIndex m.merchant r.merchant
        · rw [hx] at this; simp at this
        · simp [hx]))
    · exact hm ((keyIndex_isSome_iff _ _).mp (by
        have := List.any_eq_false.mp h3 r hr
        cases hx : keyIndex m.payment_method r.payment_method
        · rw [hx] at this; simp at this
        · simp [hx]))
    · exact hm ((keyIndex_isSome_iff _ _).mp (by
        have := List.any_eq_false.mp h4 r hr
        cases hx : keyIndex m.user r.user_id
        · rw [hx] at this; simp at this
        · simp [hx]))
    · have := List.any_eq_false.mp h5 r hr
      simp at this
      exact hm this

/-- Failure kinds raised by the loader (`DatabaseConnectionError`,
`DimensionLoadError`, `FactLoadError`; the fact-enrichment failures carry
which natural key was unmapped). -/

lemma sortedUnique_spec {α : Type} [LinearOrder α] [DecidableEq α] (xs : List α) :
    List.Sorted (· < ·) ((xs.dedup).insertionSort (· ≤ ·)) ∧
      ((xs.dedup).insertionSort (· ≤ ·)).length = xs.dedup.length ∧
      ∀ v, v ∈ (xs.dedup).insertionSort (· ≤ ·) ↔ v ∈ xs := by
  have hperm := List.perm_insertionSort (α := α) (· ≤ ·) xs.dedup
  have hsorted := List.sorted_insertionSort (α := α) (· ≤ ·) xs.dedup
  have hnd : ((xs.dedup).insertionSort (· ≤ ·)).Nodup :=
    hperm.nodup_iff.mpr (List.nodup_dedup xs)
  exact ⟨hsorted.lt_of_le hnd, hperm.length_eq,
    fun v => by rw [hperm.mem_iff, List.mem_dedup]⟩

/-- C9: each of the category, merchant, payment-method and user dimension
tables contains exactly one row per distinct value of the corresponding
field among the valid records, in strictly ascending order of the natural
key (hence no duplicates), and is a pure function of the valid records. -/
theorem dimension_extraction_distinct_sorted (l : List ValidRecord) :
    (List.Sorted (· < ·) (create_dimension_data l).dim_category ∧
      (create_dimension_data l).dim_category.length
        = (l.map (fun r => r.category)).dedup.length ∧
      ∀ v, v ∈ (create_dimension_data l).dim_category
        ↔ v ∈ l.map (fun r => r.category)) ∧
    (List.Sorted (· < ·) (create_dimension_data l).dim_merchant ∧
      (create_dimension_data l).dim_merchant.length
        = (l.map (fun r => r.merchant)).dedup.length ∧
      ∀ v, v ∈ (create_dimension_data l).dim_merchant
        ↔ v ∈ l.map (fun r => r.merchant)) ∧
    (List.Sorted (· < ·) (create_dimension_data l).dim_payment_method ∧
      (create_dimension_data l).dim_payment_method.length
        = (l.map (fun r => r.payment_method)).dedup.length ∧
      ∀ v, v ∈ (create_dimension_data l).dim_payment_method
        ↔ v ∈ l.map (fun r => r.payment_method)) ∧
    (List.Sorted (· < ·) (create_dimension_data l).dim_user ∧
      (create_dimension_data l).dim_user.length
        = (l.map (fun r => r.user_id)).dedup.length ∧
      ∀ v, v ∈ (create_dimension_data l).dim_user
        ↔ v ∈ l.map (fun r => r.user_id)) :=
  ⟨sortedUnique_spec _, sortedUnique_spec _, sortedUnique_spec _, sortedUnique_spec _⟩

/-- C8: in any batch that contains at least one record with a given
transaction id, exactly one record with that id survives the duplicate drop,
namely the first occurrence in batch order (`find?`); cleaning then maps the
surviving records one to one through trimming and standardization. -/
theorem cleaner_dedup_keeps_first (l : List RawTxn) (t : RawField String)
    (h : 0 < l.countP (fun r => decide (r.transaction_id = t))) :
    ∃ r0, l.find? (fun r => decide (r.transaction_id = t)) = some r0 ∧
      (drop_duplicates l).filter (fun r => decide (r.transaction_id = t)) = [r0] ∧
      (drop_duplicates l).countP (fun r => decide (r.transaction_id = t)) = 1 ∧
      clean_transaction_data l
        = (drop_duplicates l).map (fun r => standardizeRow (trimRow r)) := by
  have hex : ∃ r ∈ l, (fun r : RawTxn => decide (r.transaction_id = t)) r = true :=
    List.countP_pos_iff.mp h
  have hsome : (l.find? (fun r => decide (r.transaction_id = t))).isSome := by
    rw [List.find?_isSome]
    exact hex
  obtain ⟨r0, hr0⟩ := Option.isSome_iff_exists.mp hsome
  have hfilter : (drop_duplicates l).filter (fun r => decide (r.transaction_id = t)) = [r0] := by
    have h2 := batchInsert_filter_of_not_mem
      (fun r : RawTxn => r.transaction_id) t l [] (by simp)
    rw [hr0] at h2
    simpa [drop_duplicates] using h2
  refine ⟨r0, hr0, hfilter, ?_, rfl⟩
  rw [List.countP_eq_length_filter, hfilter]
  rfl

/-- Witness for the cleaner theorem at a concrete two-record batch. -/
theorem cleaner_dedup_keeps_first_witness :
    0 < ([dupFirstRecord, dupSecondRecord].countP
        (fun r => decide (r.transaction_id = .value "tx1"))) ∧
    ∃ r0,
      [dupFirstRecord, dupSecondRecord].find?
          (fun r => decide (r.transaction_id = .value "tx1")) = some r0 ∧
      (drop_duplicates [dupFirstRecord, dupSecondRecord]).filter
          (fun r => decide (r.transaction_id = .value "tx1")) = [r0] ∧
      (drop_duplicates [dupFirstRecord, dupSecondRecord]).countP
          (fun r => decide (r.transaction_id = .value "tx1")) = 1 ∧
      clean_transaction_data [dupFirstRecord, dupSecondRecord]
        = (drop_duplicates [dupFirstRecord, dupSecondRecord]).map
            (fun r => standardizeRow (trimRow r)) :=
  ⟨by decide,
   cleaner_dedup_keeps_first [dupFirstRecord, dupSecondRecord] (.value "tx1") (by decide)⟩

/-- C3: with a normally behaving validation run whose import-time cutoff is
not before 2020-01-01, a record with amount exactly 0 is excluded, amount
exactly MAX_AMOUNT passes both amount predicates, amount MAX_AMOUNT + 0.01
is excluded, date exactly MIN_VALID_DATE passes all three date predicates,
and date one day before MIN_VALID_DATE is excluded; the valid output is
exactly the rows satisfying the row predicate. -/
theorem validator_boundary (p : ValParams) (r : RawTxn)
    (hA : p.amountRaises = false) (hD : p.dateRaises = false)
    (hmin : MIN_VALID_DATE ≤ p.importNow) :
    (r.amount = .value 0 → rowValid p r = false) ∧
    (r.amount = .value MAX_AMOUNT →
      badAmount (coerceAmount r) = false ∧ tooLargeAmount (coerceAmount r) = false) ∧
    (r.amount = .value (MAX_AMOUNT + 1 / 100) → rowValid p r = false) ∧
    (r.date = .value MIN_VALID_DATE →
      badDateFmt (coerceDate r) = false ∧ tooOldDate (coerceDate r) = false ∧
        futureDate p (coerceDate r) = false) ∧
    (r.date = .value (dateTs ⟨2019, 12, 31⟩) → rowValid p r = false) ∧
    (∀ l : List RawTxn,
      (validate_transaction_data p l).1 = (l.filter (rowValid p)).map (rowXform p)) := by
  refine ⟨?_, ?_, ?_, ?_, ?_, fun l => validate_fst p l⟩
  · intro ha
    have hb : badAmount (coerceAmount r) = true := by
      simp [badAmount, coerceAmount, numCoerce, ha]
    simp [rowValid, hA, hD, hb]
  · intro ha
    constructor
    · have : ¬ (MAX_AMOUNT ≤ 0) := by norm_num [MAX_AMOUNT]
      simp [badAmount, coerceAmount, numCoerce, ha, this]
    · have : ¬ (MAX_AMOUNT < MAX_AMOUNT) := lt_irrefl _
      simp [tooLargeAmount, coerceAmount, numCoerce, ha, this]
  · intro ha
    have hb : tooLargeAmount (coerceAmount r) = true := by
      have : MAX_AMOUNT < MAX_AMOUNT + 1 / 100 := by norm_num
      simp [tooLargeAmount, coerceAmount, numCoerce, ha, this]
    simp [rowValid, hA, hD, hb]
  · intro ha
    refine ⟨?_, ?_, ?_⟩
    · simp [badDateFmt, coerceDate, numCoerce, ha]
    · have : ¬ (MIN_VALID_DATE < MIN_VALID_DATE) := lt_irrefl _
      simp [tooOldDate, coerceDate, numCoerce, ha, this]
    · have : ¬ (p.importNow < MIN_VALID_DATE) := not_lt.mpr hmin
      simp [futureDate, coerceDate, numCoerce, ha, this]
  · intro ha
    have hb : tooOldDate (coerceDate (roundAmountRow (coerceAmount r))) = true := by
      have hlt : dateTs ⟨2019, 12, 31⟩ < MIN_VALID_DATE := by decide
      simp [tooOldDate, coerceDate, roundAmountRow, coerceAmount, numCoerce, ha, hlt]
    simp [rowValid, hA, hD, hb]

/-- Witness for the boundary theorem at the zero-amount record and the
minimum-date predicates. -/
theorem validator_boundary_witness :
    (normalParams.amountRaises = false ∧ normalParams.dateRaises = false ∧
      MIN_VALID_DATE ≤ normalParams.importNow) ∧
    rowValid normalParams zeroAmountRecord = false ∧
    (badDateFmt (coerceDate zeroAmountRecord) = false ∧
      tooOldDate (coerceDate zeroAmountRecord) = false ∧
      futureDate normalParams (coerceDate zeroAmountRecord) = false) :=
  ⟨⟨rfl, rfl, by decide⟩,
   (validator_boundary normalParams zeroAmountRecord rfl rfl (by decide)).1 rfl,
   (validator_boundary normalParams zeroAmountRecord rfl rfl (by decide)).2.2.2.1 rfl⟩

/-- C6 (code bug): the no-future-dates cutoff is the module-import constant,
not the validation-run start. The process imported the module on 2026-01-01;
a record dated 2026-01-02 — not in the future of a validation run on
2026-01-03 — is nonetheless reported as a future date and excluded from the
valid output. -/
theorem future_cutoff_is_import_time :
    dateTs ⟨2026, 1, 2⟩ ≤ dateTs ⟨2026, 1, 3⟩ ∧
    normalParams.importNow < dateTs ⟨2026, 1, 2⟩ ∧
    rowValid normalParams postImportRecord = false ∧
    (validate_transaction_data normalParams [postImportRecord]).1 = [] ∧
    Issue.futureDates 1 ∈ (validate_transaction_data normalParams [postImportRecord]).2 := by
  decide

/-- C5 counterexample: when the amount coercion raises, validation reports
the error issue but does NOT exclude the affected row — a batch of one
otherwise-valid record comes back with that record still in the valid
output, contradicting the claim that all affected rows are treated as
invalid. -/
theorem validator_coercion_counterexample :
    (validate_transaction_data amountRaiseParams [wholesomeRecord]).2
      = [Issue.amountError] ∧
    (validate_transaction_data amountRaiseParams [wholesomeRecord]).1
      = [wholesomeRecord] := by
  decide

/-- C5 amended: on an internal amount-coercion (resp. date-coercion) error,
validation still returns normally and appends the corresponding error issue,
but it fails open: the amount (resp. date) checks are skipped, and the valid
output is exactly the rows that pass all the other predicates. -/
theorem validator_fails_open (p : ValParams) (l : List RawTxn) :
    (p.amountRaises = true → p.dateRaises = false →
      Issue.amountError ∈ (validate_transaction_data p l).2 ∧
      (validate_transaction_data p l).1
        = (l.filter (passesExceptAmount p)).map (rowXform p)) ∧
    (p.dateRaises = true → p.amountRaises = false →
      Issue.dateError ∈ (validate_transaction_data p l).2 ∧
      (validate_transaction_data p l).1
        = (l.filter (passesExceptDate p)).map (rowXform p)) := by
  constructor
  · intro hA hD
    constructor
    · show Issue.amountError ∈ (validateState p l).issues
      unfold validateState
      exact mem_issues_categoricalBlock _ _
        (mem_issues_dateBlock _ _ _ (amountError_mem_amountBlock _ _ hA))
    · rw [validate_fst]
      have : ∀ r ∈ l, rowValid p r = passesExceptAmount p r := fun r _ => by
        simp [rowValid, passesExceptAmount, hA, hD]
      rw [List.filter_congr this]
  · intro hD hA
    constructor
    · show Issue.dateError ∈ (validateState p l).issues
      unfold validateState
      exact mem_issues_categoricalBlock _ _ (dateError_mem_dateBlock _ _ hD)
    · rw [validate_fst]
      have : ∀ r ∈ l, rowValid p r = passesExceptDate p r := fun r _ => by
        simp [rowValid, passesExceptDate, hA, hD]
      rw [List.filter_congr this]

/-- Witness for the fails-open theorem at a concrete raising run. -/
theorem validator_fails_open_witness :
    amountRaiseParams.amountRaises = true ∧ amountRaiseParams.dateRaises = false ∧
    (Issue.amountError ∈ (validate_transaction_data amountRaiseParams [wholesomeRecord]).2 ∧
      (validate_transaction_data amountRaiseParams [wholesomeRecord]).1
        = ([wholesomeRecord].filter (passesExceptAmount amountRaiseParams)).map
            (rowXform amountRaiseParams)) :=
  ⟨rfl, rfl, (validator_fails_open amountRaiseParams [wholesomeRecord]).1 rfl rfl⟩

lemma load_fact_table_fresh (facts batch : List FactRow)
    (hnd : (batch.map (fun r => r.transaction_id)).Nodup)
    (hdis : ∀ r ∈ batch, r.transaction_id ∉ facts.map (fun f => f.transaction_id)) :
    load_fact_table facts batch =
      (batchInsert (fun r : FactRow => r.transaction_id) facts batch,
       batch.length, 0) := by
  have hex : existingTransactionIds facts batch = [] := by
    unfold existingTransactionIds
    apply List.filter_eq_nil_iff.mpr
    intro t ht
    simp only [Bool.not_eq_true, decide_eq_false_iff_not]
    intro hmem
    obtain ⟨r, hr, hrt⟩ := List.mem_map.mp hmem
    exact hdis r hr (hrt ▸ ht)
  have hnew : newTransactions facts batch = batch := by
    unfold newTransactions
    rw [hex]
    apply List.filter_eq_self.mpr
    intro r _
    simp
  have hlen := length_batchInsert_of_disjoint
    (fun r : FactRow => r.transaction_id) batch facts hnd hdis
  unfold load_fact_table
  rw [hnew, hlen]
  simp

lemma load_fact_table_all_existing (facts batch : List FactRow)
    (hall : ∀ r ∈ batch, r.transaction_id ∈ facts.map (fun f => f.transaction_id)) :
    load_fact_table facts batch = (facts, 0, batch.length) := by
  have hnew : newTransactions facts batch = [] := by
    unfold newTransactions
    apply List.filter_eq_nil_iff.mpr
    intro r hr
    have h1 : r.transaction_id ∈ existingTransactionIds facts batch := by
      unfold existingTransactionIds
      apply List.mem_filter.mpr
      refine ⟨hall r hr, ?_⟩
      simp only [decide_eq_true_eq]
      exact List.mem_map_of_mem (fun f => f.transaction_id) hr
    simp [h1]
  unfold load_fact_table
  rw [hnew]
  simp [batchInsert]

lemma loadDims_idem (td : TransformedData) (W : Warehouse) (facts2 : List FactRow) :
    loadDims td { loadDims td W with facts := facts2 }
      = { loadDims td W with facts := facts2 } := by
  show loadDims td { loadDims td W with facts := facts2 }
      = { loadDims td W with facts := facts2 }
  unfold loadDims
  simp only [batchInsert_idem]

/-- C2: if any fact record's natural key (category, merchant, payment
method, user id or date key) is absent from the corresponding dimension key
mapping fetched in the same transaction — that is, from the dimension table
after this call's own dimension inserts — the load raises a typed
`FactLoadError` and the transaction is rolled back: the warehouse after the
failed call is exactly the pre-call warehouse. -/
theorem loader_enrichment_rolls_back (td : TransformedData) (W : Warehouse)
    (h : ∃ r ∈ td.fact_data,
      r.category ∉ (loadDims td W).dim_category ∨
      r.merchant ∉ (loadDims td W).dim_merchant ∨
      r.payment_method ∉ (loadDims td W).dim_payment_method ∨
      r.user_id ∉ (loadDims td W).dim_user ∨
      r.date_key ∉ (loadDims td W).dim_date.map DateRow.date_key) :
    ∃ k, run_load td W = (W, .error (.factLoad k)) := by
  obtain ⟨k, hk⟩ := enrich_error_of_missing td.fact_data
    (warehouseMappings (loadDims td W)) (by
      obtain ⟨r, hr, hm⟩ := h
      exact ⟨r, hr, by simpa [warehouseMappings] using hm⟩)
  refine ⟨k, ?_⟩
  unfold run_load load_data_warehouse
  rw [hk]

lemma enrich_covered_merged (td : TransformedData) (W : Warehouse)
    (hcov : ∀ r ∈ td.fact_data,
      r.category ∈ td.dim_category ∧ r.merchant ∈ td.dim_merchant ∧
      r.payment_method ∈ td.dim_payment_method ∧ r.user_id ∈ td.dim_user ∧
      r.date_key ∈ td.dim_date.map DateRow.date_key) :
    enrich_fact_with_keys td.fact_data (warehouseMappings (loadDims td W))
      = .ok (td.fact_data.map (enrichRow (warehouseMappings (loadDims td W)))) := by
  refine enrich_ok_of_covered _ _ (fun r hr => ?_)
  obtain ⟨h1, h2, h3, h4, h5⟩ := hcov r hr
  exact ⟨mem_batchInsert_id (Or.inr h1), mem_batchInsert_id (Or.inr h2),
    mem_batchInsert_id (Or.inr h3), mem_batchInsert_id (Or.inr h4),
    (mem_map_key_batchInsert DateRow.date_key r.date_key td.dim_date W.dim_date).mpr
      (Or.inr h5)⟩

lemma load_warehouse_fresh (td : TransformedData) (W : Warehouse)
    (hnd : (td.fact_data.map (fun r => r.transaction_id)).Nodup)
    (hcov : ∀ r ∈ td.fact_data,
      r.category ∈ td.dim_category ∧ r.merchant ∈ td.dim_merchant ∧
      r.payment_method ∈ td.dim_payment_method ∧ r.user_id ∈ td.dim_user ∧
      r.date_key ∈ td.dim_date.map DateRow.date_key)
    (hfresh : ∀ r ∈ td.fact_data,
      r.transaction_id ∉ W.facts.map (fun f => f.transaction_id)) :
    load_data_warehouse td W = .ok
      ({ dimensions_inserted := dimDeltas td W,
         facts_inserted := td.fact_data.length, facts_skipped := 0 },
       { loadDims td W with
           facts := batchInsert (fun r : FactRow => r.transaction_id)
             (loadDims td W).facts
             (td.fact_data.map (enrichRow (warehouseMappings (loadDims td W)))) }) := by
  have henrich := enrich_covered_merged td W hcov
  have htids : ((td.fact_data.map (enrichRow (warehouseMappings (loadDims td W)))).map
      (fun r => r.transaction_id)) = td.fact_data.map (fun r => r.transaction_id) := by
    rw [List.map_map]
    rfl
  have hnd2 : ((td.fact_data.map (enrichRow (warehouseMappings (loadDims td W)))).map
      (fun r => r.transaction_id)).Nodup := by
    rw [htids]; exact hnd
  have hdis2 : ∀ r ∈ td.fact_data.map (enrichRow (warehouseMappings (loadDims td W))),
      r.transaction_id ∉ (loadDims td W).facts.map (fun f => f.transaction_id) := by
    intro r hr
    obtain ⟨r0, hr0, rfl⟩ := List.mem_map.mp hr
    exact hfresh r0 hr0
  have hfact1 := load_fact_table_fresh ((loadDims td W).facts)
    (td.fact_data.map (enrichRow (warehouseMappings (loadDims td W)))) hnd2 hdis2
  unfold load_data_warehouse
  rw [henrich]
  simp only [hfact1, List.length_map]

lemma load_warehouse_again (td : TransformedData) (W : Warehouse)
    (hcov : ∀ r ∈ td.fact_data,
      r.category ∈ td.dim_category ∧ r.merchant ∈ td.dim_merchant ∧
      r.payment_method ∈ td.dim_payment_method ∧ r.user_id ∈ td.dim_user ∧
      r.date_key ∈ td.dim_date.map DateRow.date_key) :
    load_data_warehouse td
      { loadDims td W with
          facts := batchInsert (fun r : FactRow => r.transaction_id)
            (loadDims td W).facts
            (td.fact_data.map (enrichRow (warehouseMappings (loadDims td W)))) } = .ok
      ({ dimensions_inserted := zeroDimCounts,
         facts_inserted := 0, facts_skipped := td.fact_data.length },
       { loadDims td W with
           facts := batchInsert (fun r : FactRow => r.transaction_id)
             (loadDims td W).facts
             (td.fact_data.map (enrichRow (warehouseMappings (loadDims td W)))) }) := by
  have hidem := loadDims_idem td W (batchInsert (fun r : FactRow => r.transaction_id)
    (loadDims td W).facts
    (td.fact_data.map (enrichRow (warehouseMappings (loadDims td W)))))
  have henrich2 : enrich_fact_with_keys td.fact_data
      (warehouseMappings (loadDims td
        { loadDims td W with
            facts := batchInsert (fun r : FactRow => r.transaction_id)
              (loadDims td W).facts
              (td.fact_data.map (enrichRow (warehouseMappings (loadDims td W)))) }))
      = .ok (td.fact_data.map (enrichRow (warehouseMappings (loadDims td W)))) := by
    rw [hidem]
    exact enrich_covered_merged td W hcov
  have hall : ∀ r ∈ td.fact_data.map (enrichRow (warehouseMappings (loadDims td W))),
      r.transaction_id ∈
        (batchInsert (fun r : FactRow => r.transaction_id) (loadDims td W).facts
          (td.fact_data.map (enrichRow (warehouseMappings (loadDims td W))))).map
          (fun f => f.transaction_id) :=
    fun r hr =>
      (mem_map_key_batchInsert (fun f : FactRow => f.transaction_id) r.transaction_id
        _ _).mpr (Or.inr (List.mem_map_of_mem _ hr))
  have hfact2 := load_fact_table_all_existing
    (batchInsert (fun r : FactRow => r.transaction_id) (loadDims td W).facts
      (td.fact_data.map (enrichRow (warehouseMappings (loadDims td W)))))
    (td.fact_data.map (enrichRow (warehouseMappings (loadDims td W)))) hall
  have hdelta : dimDeltas td
      { loadDims td W with
          facts := batchInsert (fun r : FactRow => r.transaction_id)
            (loadDims td W).facts
            (td.fact_data.map (enrichRow (warehouseMappings (loadDims td W)))) }
      = zeroDimCounts := by
    unfold dimDeltas
    rw [hidem]
    simp [zeroDimCounts]
  unfold load_data_warehouse
  rw [henrich2, hidem, hdelta]
  simp only [hfact2, List.length_map]

/-- C1: loading a batch with pairwise distinct transaction ids, whose
dimension tables cover every natural key its facts reference, into a
warehouse that contains none of those transaction ids, commits with
facts_inserted = N and facts_skipped = 0; loading the identical batch again
against the resulting state commits with facts_inserted = 0,
facts_skipped = N and an inserted count of 0 for every one of the five
dimensions, and leaves the warehouse state exactly unchanged. -/
theorem loader_idempotent (td : TransformedData) (W : Warehouse)
    (hnd : (td.fact_data.map (fun r => r.transaction_id)).Nodup)
    (hcov : ∀ r ∈ td.fact_data,
      r.category ∈ td.dim_category ∧ r.merchant ∈ td.dim_merchant ∧
      r.payment_method ∈ td.dim_payment_method ∧ r.user_id ∈ td.dim_user ∧
      r.date_key ∈ td.dim_date.map DateRow.date_key)
    (hfresh : ∀ r ∈ td.fact_data,
      r.transaction_id ∉ W.facts.map (fun f => f.transaction_id)) :
    ∃ W1 s1, run_load td W = (W1, .ok s1) ∧
      s1.facts_inserted = td.fact_data.length ∧
      s1.facts_skipped = 0 ∧
      run_load td W1 =
        (W1, .ok { dimensions_inserted := zeroDimCounts,
                   facts_inserted := 0,
                   facts_skipped := td.fact_data.length }) := by
  refine ⟨{ loadDims td W with
      facts := batchInsert (fun r : FactRow => r.transaction_id)
        (loadDims td W).facts
        (td.fact_data.map (enrichRow (warehouseMappings (loadDims td W)))) },
    { dimensions_inserted := dimDeltas td W,
      facts_inserted := td.fact_data.length, facts_skipped := 0 },
    ?_, rfl, rfl, ?_⟩
  · unfold run_load
    rw [load_warehouse_fresh td W hnd hcov hfresh]
  · unfold run_load
    rw [load_warehouse_again td W hcov]

lemma daysInMonth_le (y m : Nat) : daysInMonth y m ≤ 31 := by
  unfold daysInMonth
  split
  · split <;> omega
  · split <;> omega

lemma toKey_inj_on_valid {a b : Date} (ha : validDate a) (hb : validDate b)
    (h : a.toKey = b.toKey) : a = b := by
  obtain ⟨ha1, ha2, ha3, ha4, ha5, ha6⟩ := ha
  obtain ⟨hb1, hb2, hb3, hb4, hb5, hb6⟩ := hb
  have ha7 : a.day ≤ 31 := le_trans ha6 (daysInMonth_le a.year a.month)
  have hb7 : b.day ≤ 31 := le_trans hb6 (daysInMonth_le b.year b.month)
  unfold Date.toKey at h
  cases a
  cases b
  simp only [Date.mk.injEq]
  simp only at h ha3 ha4 ha5 ha7 hb3 hb4 hb5 hb7
  omega

lemma isoDayOfWeek_bounds (d : Date) : 1 ≤ isoDayOfWeek d ∧ isoDayOfWeek d ≤ 7 := by
  unfold isoDayOfWeek
  have := Nat.mod_lt (rataDie d - 1) (by omega : 0 < 7)
  omega

/-- C4: the derived date dimension has exactly one row per distinct input
date, in strictly ascending date-key (hence date) order; every row is the
attribute record of its date, with `date_key` the 8-digit YYYYMMDD integer,
`quarter` the ceiling of month/3 (characterised by its bounds),
`day_of_week` the ISO day of week, `week_of_year` the ISO week number, and
`is_weekend` true exactly on ISO days 6 and 7; in particular the row for
2023-06-17 has the claimed values. -/
theorem date_dimension_correct (dates : List Date) (hv : ∀ d ∈ dates, validDate d) :
    List.Pairwise (fun a b : DateRow => a.date_key < b.date_key)
      (derive_date_attributes dates) ∧
    (∀ d : Date, (∃ row ∈ derive_date_attributes dates, row.date = d) ↔ d ∈ dates) ∧
    (derive_date_attributes dates).length = dates.dedup.length ∧
    (∀ row ∈ derive_date_attributes dates,
      row = mkDateRow row.date ∧
      row.date_key = row.year * 10000 + row.month * 100 + row.day ∧
      (10000000 ≤ row.date_key ∧ row.date_key ≤ 99999999) ∧
      row.day_of_week = isoDayOfWeek row.date ∧
      row.week_of_year = isoWeekOfYear row.date ∧
      (3 * (row.quarter - 1) < row.month ∧ row.month ≤ 3 * row.quarter) ∧
      (1 ≤ row.day_of_week ∧ row.day_of_week ≤ 7) ∧
      (row.is_weekend = true ↔ row.day_of_week = 6 ∨ row.day_of_week = 7)) ∧
    mkDateRow ⟨2023, 6, 17⟩ =
      { date_key := 20230617, date := ⟨2023, 6, 17⟩, year := 2023, quarter := 2,
        month := 6, day := 17, month_name := "June", day_name := "Saturday",
        day_of_week := 6, week_of_year := 24, is_weekend := true } := by
  have hperm : ((dates.dedup).insertionSort dateLe).Perm dates.dedup :=
    List.perm_insertionSort _ _
  have hsorted : List.Sorted dateLe ((dates.dedup).insertionSort dateLe) :=
    List.sorted_insertionSort _ _
  have hnodup : ((dates.dedup).insertionSort dateLe).Nodup :=
    hperm.nodup_iff.mpr (List.nodup_dedup dates)
  have hmem : ∀ d, d ∈ (dates.dedup).insertionSort dateLe ↔ d ∈ dates := fun d => by
    rw [hperm.mem_iff, List.mem_dedup]
  have hvalid : ∀ d ∈ (dates.dedup).insertionSort dateLe, validDate d :=
    fun d hd => hv d ((hmem d).mp hd)
  refine ⟨?_, ?_, ?_, ?_, by decide⟩
  · rw [derive_date_attributes, List.pairwise_map]
    have hboth := hsorted.and (List.Pairwise.imp (fun h => h) hnodup)
    refine hboth.imp_of_mem (fun ha hb h => ?_)
    have hne : Date.toKey _ ≠ Date.toKey _ :=
      fun hk => h.2 (toKey_inj_on_valid (hvalid _ ha) (hvalid _ hb) hk)
    exact lt_of_le_of_ne h.1 hne
  · intro d
    constructor
    · rintro ⟨row, hrow, hdate⟩
      obtain ⟨d0, hd0, rfl⟩ := List.mem_map.mp hrow
      have : d0 = d := hdate
      exact (hmem d).mp (this ▸ hd0)
    · intro hd
      exact ⟨mkDateRow d, List.mem_map_of_mem mkDateRow ((hmem d).mpr hd), rfl⟩
  · rw [derive_date_attributes, List.length_map, hperm.length_eq]
  · intro row hrow
    obtain ⟨d0, hd0, rfl⟩ := List.mem_map.mp hrow
    obtain ⟨h1, h2, h3, h4, h5, h6⟩ := hvalid d0 hd0
    have h7 : d0.day ≤ 31 := le_trans h6 (daysInMonth_le d0.year d0.month)
    have hdow := isoDayOfWeek_bounds d0
    refine ⟨rfl, rfl, ?_, rfl, rfl, ?_, ?_, ?_⟩
    · show 10000000 ≤ d0.toKey ∧ d0.toKey ≤ 99999999
      unfold Date.toKey
      omega
    · show 3 * ((d0.month + 2) / 3 - 1) < d0.month ∧ d0.month ≤ 3 * ((d0.month + 2) / 3)
      omega
    · exact hdow
    · show (isoDayOfWeek d0 == 6 || isoDayOfWeek d0 == 7) = true ↔
        isoDayOfWeek d0 = 6 ∨ isoDayOfWeek d0 = 7
      simp

/-- Witness for the idempotency theorem at a one-record batch against an
empty warehouse. -/
theorem loader_idempotent_witness :
    ((sampleTd.fact_data.map (fun r => r.transaction_id)).Nodup) ∧
    (∃ W1 s1, run_load sampleTd emptyWarehouse = (W1, .ok s1) ∧
      s1.facts_inserted = sampleTd.fact_data.length ∧
      s1.facts_skipped = 0 ∧
      run_load sampleTd W1 =
        (W1, .ok { dimensions_inserted := zeroDimCounts,
                   facts_inserted := 0,
                   facts_skipped := sampleTd.fact_data.length })) :=
  ⟨by decide,
   loader_idempotent sampleTd emptyWarehouse (by decide) (by decide) (by decide)⟩

/-- Witness for the rollback theorem: a batch with an unmapped category
against an empty warehouse fails with a typed error and leaves the
warehouse untouched. -/
theorem loader_enrichment_rolls_back_witness :
    (∃ r ∈ unmappedTd.fact_data,
      r.category ∉ (loadDims unmappedTd emptyWarehouse).dim_category ∨
      r.merchant ∉ (loadDims unmappedTd emptyWarehouse).dim_merchant ∨
      r.payment_method ∉ (loadDims unmappedTd emptyWarehouse).dim_payment_method ∨
      r.user_id ∉ (loadDims unmappedTd emptyWarehouse).dim_user ∨
      r.date_key ∉ (loadDims unmappedTd emptyWarehouse).dim_date.map DateRow.date_key) ∧
    (∃ k, run_load unmappedTd emptyWarehouse = (emptyWarehouse, .error (.factLoad k))) :=
  ⟨by decide, loader_enrichment_rolls_back unmappedTd emptyWarehouse (by decide)⟩

/-- Witness for the date-dimension theorem at a concrete two-date input. -/
theorem date_dimension_correct_witness :
    (∀ d ∈ [(⟨2023, 6, 17⟩ : Date), ⟨2020, 2, 29⟩], validDate d) ∧
    (derive_date_attributes [⟨2023, 6, 17⟩, ⟨2020, 2, 29⟩]).length
      = ([(⟨2023, 6, 17⟩ : Date), ⟨2020, 2, 29⟩]).dedup.length :=
  ⟨by decide,
   (date_dimension_correct [⟨2023, 6, 17⟩, ⟨2020, 2, 29⟩] (by decide)).2.2.1⟩

/-- C10: the orchestrator is total — whatever each phase does (returns or
raises), `run_etl_pipeline` returns a result record and never propagates:
every raised error, typed or unexpected, becomes a returned failure record
carrying the phase-tagged message, the elapsed time, and the statistics
accumulated up to the failing phase; successful (and dry-run) executions
return a success record. -/
theorem orchestrator_total
    (ext : Except String (List RawTxn))
    (tr : List RawTxn → Except String TransformedData)
    (ld : TransformedData → Except String LoadStats)
    (dry : Bool) (t : ℚ) :
    ((run_etl_pipeline ext tr ld dry t).status = .success ∧
        (run_etl_pipeline ext tr ld dry t).error = none ∨
      (run_etl_pipeline ext tr ld dry t).status = .failure ∧
        (run_etl_pipeline ext tr ld dry t).error.isSome = true) ∧
    (∀ e, ext = .error e →
      run_etl_pipeline ext tr ld dry t =
        { status := .failure, execution_time_seconds := t, extract := 0,
          transform := 0, load := 0, facts_skipped := 0,
          dimensions_inserted := zeroDimCounts,
          error := some ("Extract phase failed: " ++ e) }) ∧
    (∀ df e, ext = .ok df → tr df = .error e →
      run_etl_pipeline ext tr ld dry t =
        { status := .failure, execution_time_seconds := t, extract := df.length,
          transform := 0, load := 0, facts_skipped := 0,
          dimensions_inserted := zeroDimCounts,
          error := some ("Transform phase failed: " ++ e) }) ∧
    (∀ df td e, ext = .ok df → tr df = .ok td → dry = false → ld td = .error e →
      run_etl_pipeline ext tr ld dry t =
        { status := .failure, execution_time_seconds := t, extract := df.length,
          transform := td.fact_data.length, load := 0, facts_skipped := 0,
          dimensions_inserted := zeroDimCounts,
          error := some ("Load phase failed: " ++ e) }) ∧
    (∀ df td, ext = .ok df → tr df = .ok td → dry = true →
      run_etl_pipeline ext tr ld dry t =
        { status := .success, execution_time_seconds := t, extract := df.length,
          transform := td.fact_data.length, load := 0, facts_skipped := 0,
          dimensions_inserted := zeroDimCounts, error := none }) ∧
    (∀ df td s, ext = .ok df → tr df = .ok td → dry = false → ld td = .ok s →
      run_etl_pipeline ext tr ld dry t =
        { status := .success, execution_time_seconds := t, extract := df.length,
          transform := td.fact_data.length, load := s.facts_inserted,
          facts_skipped := s.facts_skipped,
          dimensions_inserted := s.dimensions_inserted, error := none }) := by
  refine ⟨?_, ?_, ?_, ?_, ?_, ?_⟩
  · rcases ext with e | df
    · simp [run_etl_pipeline]
    · rcases htr : tr df with e | td
      · simp [run_etl_pipeline, htr]
      · cases dry
        · rcases hld : ld td with e | s
          · simp [run_etl_pipeline, htr, hld]
          · simp [run_etl_pipeline, htr, hld]
        · simp [run_etl_pipeline, htr]
  · intro e he
    subst he
    rfl
  · intro df e h1 h2
    subst h1
    simp [run_etl_pipeline, h2]
  · intro df td e h1 h2 h3 h4
    subst h1 h3
    simp [run_etl_pipeline, h2, h4]
  · intro df td h1 h2 h3
    subst h1 h3
    simp [run_etl_pipeline, h2]
  · intro df td s h1 h2 h3 h4
    subst h1 h3
    simp [run_etl_pipeline, h2, h4]

/-- Witness for the orchestrator theorem: a failing extract phase yields the
documented failure record. -/
theorem orchestrator_total_witness :
    run_etl_pipeline (.error "boom") (fun _ => .error "t") (fun _ => .error "l") false 1
      = { status := .failure, execution_time_seconds := 1, extract := 0,
          transform := 0, load := 0, facts_skipped := 0,
          dimensions_inserted := zeroDimCounts,
          error := some ("Extract phase failed: " ++ "boom") } :=
  (orchestrator_total (.error "boom") (fun _ => .error "t")
    (fun _ => .error "l") false 1).2.1 "boom" rfl

lemma pySplitAux_nil (acc : List Char) :
    pySplitAux [] acc = if acc = [] then [] else [acc.reverse] := rfl

lemma pySplitAux_cons (c : Char) (cs acc : List Char) :
    pySplitAux (c :: cs) acc =
      if isPySpace c = true then
        (if acc = [] then pySplitAux cs [] else acc.reverse :: pySplitAux cs [])
      else pySplitAux cs (c :: acc) := rfl

lemma pyTitleAux_cons (b : Bool) (c : Char) (cs : List Char) :
    pyTitleAux b (c :: cs) =
      if c.isAlpha = true then
        (if b = true then c.toLower else c.toUpper) :: pyTitleAux true cs
      else c :: pyTitleAux false cs := rfl

lemma pySplitAux_dropWhile : ∀ l : List Char,
    pySplitAux (l.dropWhile isPySpace) [] = pySplitAux l []
  | [] => rfl
  | c :: cs => by
    rw [List.dropWhile_cons]
    by_cases hc : isPySpace c = true
    · rw [if_pos hc, pySplitAux_dropWhile cs, pySplitAux_cons, if_pos hc, if_pos rfl]
    · rw [if_neg hc]

lemma pySplitAux_all_space : ∀ (t acc : List Char),
    (∀ c ∈ t, isPySpace c = true) →
    pySplitAux t acc = if acc = [] then [] else [acc.reverse]
  | [], _, _ => rfl
  | c :: t, acc, h => by
    have hrec : pySplitAux t [] = [] :=
      (pySplitAux_all_space t [] (fun x hx => h x (List.mem_cons_of_mem c hx))).trans rfl
    rw [pySplitAux_cons]
    rw [if_pos (h c (List.mem_cons_self c t))]
    rw [hrec]

lemma pySplitAux_append_space : ∀ (l t acc : List Char),
    (∀ c ∈ t, isPySpace c = true) →
    pySplitAux (l ++ t) acc = pySplitAux l acc
  | [], t, acc, h => by
    rw [List.nil_append, pySplitAux_all_space t acc h, pySplitAux_nil]
  | c :: l, t, acc, h => by
    rw [List.cons_append, pySplitAux_cons c (l ++ t) acc, pySplitAux_cons c l acc]
    by_cases hc : isPySpace c = true
    · rw [if_pos hc, if_pos hc]
      by_cases ha : acc = []
      · rw [if_pos ha, if_pos ha, pySplitAux_append_space l t [] h]
      · rw [if_neg ha, if_neg ha, pySplitAux_append_space l t [] h]
    · rw [if_neg hc, if_neg hc, pySplitAux_append_space l t (c :: acc) h]

lemma pySplit_strip (l : List Char) : pySplitL (pyStripL l) = pySplitL l := by
  unfold pySplitL pyStripL
  rw [pySplitAux_dropWhile (stripTrailing l)]
  have hdecomp : l = stripTrailing l ++ (l.reverse.takeWhile isPySpace).reverse := by
    unfold stripTrailing
    conv_lhs => rw [← List.reverse_reverse l,
      ← List.takeWhile_append_dropWhile (p := isPySpace) (l := l.reverse)]
    rw [List.reverse_append]
  conv_rhs => rw [hdecomp]
  rw [pySplitAux_append_space _ _ _
    (fun c hc => List.mem_takeWhile_imp (List.mem_reverse.mp hc))]

lemma isPySpace_eq_false_of_isAlpha {c : Char} (h : c.isAlpha = true) :
    isPySpace c = false := by
  cases hsp : isPySpace c
  · rfl
  · exfalso
    simp only [isPySpace, Bool.or_eq_true, decide_eq_true_eq] at hsp
    rcases hsp with ((((rfl | rfl) | rfl) | rfl) | rfl) | rfl <;>
      exact absurd h (by decide)

lemma pySplitAux_words : ∀ (l acc : List Char),
    (∀ c ∈ l, c.isAlpha = true ∨ c = ' ') → (∀ c ∈ acc, c.isAlpha = true) →
    ∀ w ∈ pySplitAux l acc, w ≠ [] ∧ ∀ c ∈ w, c.isAlpha = true
  | [], acc, _, hacc => by
    intro w hw
    rw [pySplitAux_nil] at hw
    by_cases ha : acc = []
    · rw [if_pos ha] at hw
      cases hw
    · rw [if_neg ha] at hw
      rcases List.mem_singleton.mp hw with rfl
      refine ⟨by simpa using ha, fun c hc => hacc c (List.mem_reverse.mp hc)⟩
  | c :: l, acc, h, hacc => by
    intro w hw
    have hl : ∀ x ∈ l, x.isAlpha = true ∨ x = ' ' :=
      fun x hx => h x (List.mem_cons_of_mem c hx)
    rw [pySplitAux_cons] at hw
    rcases h c (List.mem_cons_self c l) with hc | hc
    · have hsp := isPySpace_eq_false_of_isAlpha hc
      rw [hsp] at hw
      simp only [Bool.false_eq_true, if_false] at hw
      refine pySplitAux_words l (c :: acc) hl (fun x hx => ?_) w hw
      rcases List.mem_cons.mp hx with rfl | hx2
      · exact hc
      · exact hacc x hx2
    · subst hc
      rw [if_pos (show isPySpace ' ' = true from rfl)] at hw
      by_cases ha : acc = []
      · rw [if_pos ha] at hw
        exact pySplitAux_words l [] hl (by simp) w hw
      · rw [if_neg ha] at hw
        rcases List.mem_cons.mp hw with rfl | hw2
        · refine ⟨by simpa using ha, fun x hx => hacc x (List.mem_reverse.mp hx)⟩
        · exact pySplitAux_words l [] hl (by simp) w hw2

lemma pyTitleAux_true_append : ∀ (cs rest : List Char),
    (∀ c ∈ cs, c.isAlpha = true) →
    pyTitleAux true (cs ++ rest) = cs.map Char.toLower ++ pyTitleAux true rest
  | [], _, _ => rfl
  | c :: cs, rest, h => by
    rw [List.cons_append, pyTitleAux_cons, if_pos (h c (List.mem_cons_self c cs)),
      if_pos rfl, pyTitleAux_true_append cs rest
        (fun x hx => h x (List.mem_cons_of_mem c hx))]
    rfl

lemma pyTitleAux_true_alpha (cs : List Char) (h : ∀ c ∈ cs, c.isAlpha = true) :
    pyTitleAux true cs = cs.map Char.toLower := by
  have h2 := pyTitleAux_true_append cs [] h
  have h3 : pyTitleAux true ([] : List Char) = [] := rfl
  rw [List.append_nil, h3, List.append_nil] at h2
  exact h2

lemma pyTitleAux_space (b : Bool) (rest : List Char) :
    pyTitleAux b (' ' :: rest) = ' ' :: pyTitleAux false rest := rfl

lemma pyTitleAux_word (c : Char) (cs : List Char)
    (hc : c.isAlpha = true) (hcs : ∀ x ∈ cs, x.isAlpha = true) :
    pyTitleAux false (c :: cs) = capWord (c :: cs) := by
  rw [pyTitleAux_cons, if_pos hc, if_neg (by simp), pyTitleAux_true_alpha cs hcs]
  rfl

lemma pyTitleAux_word_append (c : Char) (cs rest : List Char)
    (hc : c.isAlpha = true) (hcs : ∀ x ∈ cs, x.isAlpha = true) :
    pyTitleAux false ((c :: cs) ++ ' ' :: rest)
      = capWord (c :: cs) ++ ' ' :: pyTitleAux false rest := by
  rw [List.cons_append, pyTitleAux_cons, if_pos hc, if_neg (by simp),
    pyTitleAux_true_append cs (' ' :: rest) hcs, pyTitleAux_space]
  rfl

lemma title_joinSpace : ∀ ws : List (List Char),
    (∀ w ∈ ws, w ≠ [] ∧ ∀ c ∈ w, c.isAlpha = true) →
    pyTitleAux false (joinSpace ws) = joinSpace (ws.map capWord)
  | [], _ => rfl
  | [w], h => by
    obtain ⟨hne, halpha⟩ := h w (List.mem_singleton.mpr rfl)
    cases w with
    | nil => exact absurd rfl hne
    | cons c cs =>
      show pyTitleAux false (c :: cs) = joinSpace [capWord (c :: cs)]
      rw [pyTitleAux_word c cs (halpha c (List.mem_cons_self c cs))]
      · rfl
      · exact fun x hx => halpha x (List.mem_cons_of_mem c hx)
  | w :: x :: ws, h => by
    obtain ⟨hne, halpha⟩ := h w (List.mem_cons_self w (x :: ws))
    have hrest : ∀ v ∈ x :: ws, v ≠ [] ∧ ∀ c ∈ v, c.isAlpha = true :=
      fun v hv => h v (List.mem_cons_of_mem w hv)
    cases w with
    | nil => exact absurd rfl hne
    | cons c cs =>
      show pyTitleAux false ((c :: cs) ++ ' ' :: joinSpace (x :: ws))
        = joinSpace (capWord (c :: cs) :: (x :: ws).map capWord)
      rw [pyTitleAux_word_append c cs (joinSpace (x :: ws))
        (halpha c (List.mem_cons_self c cs))
        (fun y hy => halpha y (List.mem_cons_of_mem c hy))]
      rw [title_joinSpace (x :: ws) hrest]
      rfl

/-- C7 counterexample: the category standardizer does not collapse internal
whitespace runs — on a category value with a double space it keeps both
spaces, while the claimed transformation yields a single space. -/
theorem standardize_collapse_counterexample :
    standardize_category (some "a  b") = some "A  B" ∧
    specStandardize "a  b" = "A B" ∧
    standardize_category (some "a  b") ≠ some (specStandardize "a  b") := by
  decide

/-- C7 amended: the merchant standardizer performs the full claimed
transformation (string conversion, strip, collapse of internal whitespace
runs, title casing) on values made of ASCII letters and spaces; the category
and payment-method standardizers only strip and title-case, so on such
values they agree with the claimed transformation exactly when the stripped
value has no internal run of two or more spaces (stripping it is already a
single-space join of its words). -/
theorem standardize_follows_spec (s : String)
    (halpha : ∀ c ∈ s.toList, c.isAlpha = true ∨ c = ' ') :
    standardize_merchant (some s) = some (specStandardize s) ∧
    (pyStripL s.toList = joinSpace (pySplitL s.toList) →
      standardize_category (some s) = some (specStandardize s) ∧
      standardize_payment_method (some s) = some (specStandardize s)) := by
  have hwords : ∀ w ∈ pySplitL s.toList, w ≠ [] ∧ ∀ c ∈ w, c.isAlpha = true :=
    pySplitAux_words s.toList [] halpha (by simp)
  have htitle : pyTitleL (joinSpace (pySplitL s.toList))
      = joinSpace ((pySplitL s.toList).map capWord) := title_joinSpace _ hwords
  constructor
  · show some ((pyTitleL (joinSpace (pySplitL (pyStripL s.toList)))).asString)
      = some ((joinSpace ((pySplitL s.toList).map capWord)).asString)
    rw [pySplit_strip, htitle]
  · intro hsingle
    constructor
    · show some ((pyTitleL (pyStripL s.toList)).asString)
        = some ((joinSpace ((pySplitL s.toList).map capWord)).asString)
      rw [hsingle, htitle]
    · show some ((pyTitleL (pyStripL s.toList)).asString)
        = some ((joinSpace ((pySplitL s.toList).map capWord)).asString)
      rw [hsingle, htitle]

/-- Witness for the amended standardizer theorem at a concrete merchant
value with extra internal spaces. -/
theorem standardize_follows_spec_witness :
    (∀ c ∈ ("  walmart   SUPERCENTER " : String).toList, c.isAlpha = true ∨ c = ' ') ∧
    standardize_merchant (some "  walmart   SUPERCENTER ")
      = some (specStandardize "  walmart   SUPERCENTER ") ∧
    specStandardize "  walmart   SUPERCENTER " = "Walmart Supercenter" :=
  ⟨by decide, (standardize_follows_spec "  walmart   SUPERCENTER " (by decide)).1,
   by decide⟩


end ETL
